import Mathlib

/-!
Verification model of `bluepairy` (src/bluepairy.cxx, src/bluepairy.hxx).

The development shallowly embeds the parts of the program the claims are
about:

* the object registry (`Bluepairy::getAdapter` / `getDevice` /
  `removeDevice`, `BlueZ::Adapter::exists`, `BlueZ::Device::exists`);
* the property decoder (`BlueZ::Adapter::onPropertiesChanged`,
  `BlueZ::Device::onPropertiesChanged`);
* the candidate filters (`Bluepairy::usableDevices`,
  `Bluepairy::pairableDevices`, `Bluepairy::hasExpectedProfiles`);
* the PIN policy (`Bluepairy::guessPIN`);
* the error taxonomy (`throwIfErrorIsSet`) and the per-device pairing
  loop of `main`;
* wait-loop guards of `Bluepairy::powerUpAllAdapters`, `trust`,
  `startDiscovery` and `forget`.

C++ objects held through `shared_ptr` are modelled by an append-only heap
(`List Adapter` / `List Device`) addressed by `Nat` ids (pointer
identity); the registries (`Bluepairy::Adapters` / `Devices`) are lists of
ids.  `std::string` values are Lean `String`s ordered bytewise through
their character lists, and `std::set<std::string>` is a strictly sorted
`List String`.
-/

/-- Lexicographic comparison of character lists; the order used by
`operator<` on `std::string` (bytewise comparison; all strings handled by
the program are ASCII). -/
def charsLt : List Char → List Char → Bool
  | [], [] => false
  | [], _ :: _ => true
  | _ :: _, [] => false
  | a :: as, b :: bs => if a < b then true else if b < a then false else charsLt as bs

/-- Model of `operator<` on `std::string`. -/
def strLt (a b : String) : Bool := charsLt a.toList b.toList

/-- Ordered insertion into a strictly sorted list: the effect of
`std::set<std::string>::insert` on the set's element sequence. -/
def setInsert (x : String) : List String → List String
  | [] => [x]
  | y :: ys => if strLt x y then x :: y :: ys else if strLt y x then y :: setInsert x ys else y :: ys

/-- The element sequence of a `std::set<std::string>` built by inserting
the given strings in order into an empty set (`UUIDs.clear()` followed by
the insert loop in `BlueZ::Device::onPropertiesChanged`). -/
def setOfList (l : List String) : List String := l.foldl (fun acc u => setInsert u acc) []

/-- Model of `std::set_intersection` on two ranges, as used by
`Bluepairy::hasExpectedProfiles`.  The standard algorithm advances the
second range while `*first2 < *first1` (here the `dropWhile`), stops when
either range is exhausted, advances the first range alone when
`*first1 < *first2`, and emits the element and advances both otherwise. -/
def setIntersection : List String → List String → List String
  | [], _ => []
  | a :: as, bs =>
    match bs.dropWhile (fun b => strLt b a) with
    | [] => []
    | b :: bs' => if strLt a b then setIntersection as (b :: bs') else a :: setIntersection as bs'

/-- Model of `std::sort` on a vector of strings: the (unique) non-descending
rearrangement of the input. -/
def sortStrings (l : List String) : List String :=
  List.insertionSort (fun a b => !(strLt b a)) l

/-- The HID profile UUID appended by the `--hid` flag in `main`. -/
def hidUUID : String := "00001124-0000-1000-8000-00805f9b34fb"

/-- The `ExpectedUUIDs` member after startup: `main` appends the HID UUID
when `--hid` was given, and the `Bluepairy` constructor sorts the vector
(`sort(begin(ExpectedUUIDs), end(ExpectedUUIDs))`); no deduplication is
performed. -/
def buildExpected (uuids : List String) (hid : Bool) : List String :=
  sortStrings (uuids ++ if hid then [hidUUID] else [])

/-- A decoded D-Bus variant value, restricted to the kinds the property
decoder inspects (`DBUS_TYPE_STRING`, `DBUS_TYPE_BOOLEAN`, a string
array, `DBUS_TYPE_OBJECT_PATH`); any other variant kind is `other` and is
ignored by every branch. -/
inductive PropValue where
  | str (s : String)
  | boolean (b : Bool)
  | strArray (l : List String)
  | objectPath (p : String)
  | other
deriving DecidableEq

/-- One `PropertiesChanged` dictionary: a flat sequence of
(property name, variant value) entries. -/
abbrev Payload := List (String × PropValue)

/-- State of a `BlueZ::Adapter` record (fields `Address`, `Name`, `Powered`,
`Discovering`, plus the immutable object path from `BlueZ::Object`). -/
@[ext]
structure Adapter where
  path : String
  address : String
  name : String
  powered : Bool
  discovering : Bool
deriving DecidableEq

/-- State of a `BlueZ::Device` record.  Here `adapterRef` models the
`shared_ptr<Adapter> AdapterPtr` member as an optional heap id; `uuids`
models the `std::set<std::string> UUIDs` member as its strictly sorted
element sequence. -/
@[ext]
structure Device where
  path : String
  adapterRef : Option Nat
  address : String
  connected : Bool
  name : String
  paired : Bool
  trusted : Bool
  uuids : List String
deriving DecidableEq

/-- A fresh `BlueZ::Adapter(Path, Pairy)`.  The C++ constructor
default-initializes the string members (empty) but leaves the `bool`
members `Powered` and `Discovering` uninitialized; the model takes the
spec's zero-initialized reading (`false`), and claim C3 records the
divergence. -/
def mkAdapter (p : String) : Adapter :=
  { path := p, address := "", name := "", powered := false, discovering := false }

/-- A fresh `BlueZ::Device(Path, Pairy)`.  Strings, the UUID set and the
adapter `shared_ptr` are default-initialized (empty / null); the `bool`
members `Connected`, `Paired`, `Trusted` are uninitialized in C++ and
modelled `false` per the spec's zero-initialized reading (claim C3). -/
def mkDevice (p : String) : Device :=
  { path := p, adapterRef := none, address := "", connected := false,
    name := "", paired := false, trusted := false, uuids := [] }

/-- The adapter side of a `Bluepairy` object: `heap` holds every
`BlueZ::Adapter` object ever created (objects stay alive through
`shared_ptr`s), `reg` is the `Adapters` vector as a list of heap ids. -/
@[ext]
structure AdSt where
  heap : List Adapter
  reg : List Nat
deriving DecidableEq

/-- The device side of a `Bluepairy` object: `heap` holds every
`BlueZ::Device` object ever created, `reg` is the `Devices` vector. -/
@[ext]
structure DevSt where
  heap : List Device
  reg : List Nat
deriving DecidableEq

/-- Full registry state of a `Bluepairy` object. -/
@[ext]
structure St where
  ads : AdSt
  devs : DevSt
deriving DecidableEq

/-- Dereference an adapter id (the dummy is never reached for ids
produced by `getAdapter` on well-formed states). -/
def adGet (s : AdSt) (i : Nat) : Adapter := s.heap.getD i (mkAdapter "")

/-- Dereference a device id. -/
def devGet (s : DevSt) (i : Nat) : Device := s.heap.getD i (mkDevice "")

/-- Representation invariant: every registered id denotes a heap cell
(in C++, every `shared_ptr` in the vector points at a live object). -/
def AdSt.WF (s : AdSt) : Prop := ∀ i ∈ s.reg, i < s.heap.length

/-- Representation invariant for the device registry. -/
def DevSt.WF (s : DevSt) : Prop := ∀ i ∈ s.reg, i < s.heap.length

/-- Model of `Bluepairy::getAdapter`: return the first registered adapter whose
path equals `p`, or create a new `BlueZ::Adapter`, register it and
return it. -/
def getAdapter (s : AdSt) (p : String) : AdSt × Nat :=
  match s.reg.find? (fun i => (adGet s i).path == p) with
  | some i => (s, i)
  | none => ({ heap := s.heap ++ [mkAdapter p], reg := s.reg ++ [s.heap.length] }, s.heap.length)

/-- Model of `Bluepairy::getDevice`: return the first registered device whose path
equals `p`, or create, register and return a new `BlueZ::Device`. -/
def getDevice (s : DevSt) (p : String) : DevSt × Nat :=
  match s.reg.find? (fun i => (devGet s i).path == p) with
  | some i => (s, i)
  | none => ({ heap := s.heap ++ [mkDevice p], reg := s.reg ++ [s.heap.length] }, s.heap.length)

/-- Erase the first element satisfying `f` (`find_if` + `erase` in
`Bluepairy::removeDevice`); when nothing matches the list is returned
unchanged (the C++ only logs a warning). -/
def removeFirst (f : Nat → Bool) : List Nat → List Nat
  | [] => []
  | x :: xs => if f x then xs else x :: removeFirst f xs

/-- Model of `Bluepairy::removeDevice(Path)`: evict the first registered device
whose path equals `Path` from the `Devices` vector.  The heap entry stays
(the workflow may still hold the `shared_ptr`). -/
def removeDevice (s : DevSt) (p : String) : DevSt :=
  { s with reg := removeFirst (fun i => (devGet s i).path == p) s.reg }

/-- Model of `BlueZ::Adapter::exists`: scan `Bluepairy->Adapters` for a
`shared_ptr` whose raw pointer equals `this` (pure identity comparison;
no field of the object is read). -/
def adapterExists (s : AdSt) (i : Nat) : Bool := s.reg.contains i

/-- Model of `BlueZ::Device::exists`: scan `Bluepairy->Devices` for a pointer
identical to `this`. -/
def devExists (s : DevSt) (i : Nat) : Bool := s.reg.contains i

/-- One dictionary entry applied to a `BlueZ::Adapter`
(`Adapter::onPropertiesChanged` loop body): the `strcmp` chain checks
`Powered`, `Discovering`, `Address`, `Name` in that order, and each
branch fires only when the variant has the expected D-Bus type. -/
def Adapter.applyProp (a : Adapter) (e : String × PropValue) : Adapter :=
  if e.1 = "Powered" then
    match e.2 with
    | .boolean b => { a with powered := b }
    | _ => a
  else if e.1 = "Discovering" then
    match e.2 with
    | .boolean b => { a with discovering := b }
    | _ => a
  else if e.1 = "Address" then
    match e.2 with
    | .str v => { a with address := v }
    | _ => a
  else if e.1 = "Name" then
    match e.2 with
    | .str v => { a with name := v }
    | _ => a
  else a

/-- Model of `BlueZ::Adapter::onPropertiesChanged`: fold the dictionary entries
over the record in order. -/
def Adapter.onPropertiesChanged (a : Adapter) (P : Payload) : Adapter :=
  P.foldl Adapter.applyProp a

/-- One dictionary entry applied to a `BlueZ::Device`
(`Device::onPropertiesChanged` loop body).  The `strcmp` chain checks
`Name`, `Address`, `Paired`, `Trusted`, `Connected`, `UUIDs`, `Adapter`
in that order.  A `UUIDs` array clears the set and reinserts every
element; an `Adapter` object path resolves through
`Bluepairy->getAdapter`, possibly creating and registering the
adapter. -/
def Device.applyProp (s : AdSt) (d : Device) (e : String × PropValue) : AdSt × Device :=
  if e.1 = "Name" then
    match e.2 with
    | .str v => (s, { d with name := v })
    | _ => (s, d)
  else if e.1 = "Address" then
    match e.2 with
    | .str v => (s, { d with address := v })
    | _ => (s, d)
  else if e.1 = "Paired" then
    match e.2 with
    | .boolean b => (s, { d with paired := b })
    | _ => (s, d)
  else if e.1 = "Trusted" then
    match e.2 with
    | .boolean b => (s, { d with trusted := b })
    | _ => (s, d)
  else if e.1 = "Connected" then
    match e.2 with
    | .boolean b => (s, { d with connected := b })
    | _ => (s, d)
  else if e.1 = "UUIDs" then
    match e.2 with
    | .strArray l => (s, { d with uuids := setOfList l })
    | _ => (s, d)
  else if e.1 = "Adapter" then
    match e.2 with
    | .objectPath p => ((getAdapter s p).1, { d with adapterRef := some (getAdapter s p).2 })
    | _ => (s, d)
  else (s, d)

/-- Model of `BlueZ::Device::onPropertiesChanged`: fold the entries in order,
threading the adapter registry through the `Adapter` branch. -/
def Device.onPropertiesChanged (s : AdSt) (d : Device) (P : Payload) : AdSt × Device :=
  P.foldl (fun sd e => Device.applyProp sd.1 sd.2 e) (s, d)

/-- Model of `Bluepairy::hasExpectedProfiles`: intersect the device's profile set
with `ExpectedUUIDs` (both ranges already ordered) and compare the
intersection with `ExpectedUUIDs`. -/
def hasExpectedProfiles (exp : List String) (d : Device) : Bool :=
  setIntersection d.uuids exp == exp

/-- Model of `Bluepairy::usableDevices`, as the loop over the `Devices` vector.
Every iteration dereferences `Device->adapter()` unconditionally; a
device whose `AdapterPtr` is still null crashes the call, modelled as
`none`.  `pat` stands for `regex_search(name, Pattern, match_not_null)`
with the compiled `Pattern` (the regex engine is external). -/
def usableFrom (pat : String → Bool) (exp : List String) (st : St) : List Nat → Option (List Nat)
  | [] => some []
  | i :: is =>
    match (devGet st.devs i).adapterRef with
    | none => none
    | some a =>
      if (adGet st.ads a).powered && (devGet st.devs i).paired
          && pat (devGet st.devs i).name && hasExpectedProfiles exp (devGet st.devs i)
      then (usableFrom pat exp st is).map (i :: ·)
      else usableFrom pat exp st is

/-- Model of `Bluepairy::usableDevices()`. -/
def usableDevices (pat : String → Bool) (exp : List String) (st : St) : Option (List Nat) :=
  usableFrom pat exp st st.devs.reg

/-- Model of `Bluepairy::pairableDevices`, analogous: the condition additionally
requires `Device->adapter()->exists()` and negates `isPaired`; the
adapter pointer is still dereferenced first, without a null check. -/
def pairableFrom (pat : String → Bool) (exp : List String) (st : St) : List Nat → Option (List Nat)
  | [] => some []
  | i :: is =>
    match (devGet st.devs i).adapterRef with
    | none => none
    | some a =>
      if adapterExists st.ads a && (adGet st.ads a).powered && !(devGet st.devs i).paired
          && pat (devGet st.devs i).name && hasExpectedProfiles exp (devGet st.devs i)
      then (pairableFrom pat exp st is).map (i :: ·)
      else pairableFrom pat exp st is

/-- Model of `Bluepairy::pairableDevices()`. -/
def pairableDevices (pat : String → Bool) (exp : List String) (st : St) : Option (List Nat) :=
  pairableFrom pat exp st st.devs.reg

/-- The per-device condition of `usableDevices`, for states where the
adapter reference is set. -/
def devUsable (pat : String → Bool) (exp : List String) (ads : AdSt) (d : Device) : Bool :=
  match d.adapterRef with
  | some a => (adGet ads a).powered && d.paired && pat d.name && hasExpectedProfiles exp d
  | none => false

/-- The per-device condition of `pairableDevices`. -/
def devPairable (pat : String → Bool) (exp : List String) (ads : AdSt) (d : Device) : Bool :=
  match d.adapterRef with
  | some a => adapterExists ads a && (adGet ads a).powered && !d.paired
      && pat d.name && hasExpectedProfiles exp d
  | none => false

/-- The product-name alternatives of the `HandyTech` regex in
`Bluepairy::guessPIN`, in source order.  No alternative is a character
prefix of another and none contains a slash, so at most one of them can
begin a given device name. -/
def htPrefixes : List (List Char) :=
  ["Actilino ALO".toList, "Active Braille AB4".toList, "Active Star AS4".toList,
   "Basic Braille BB4".toList, "Braille Star 40 BS4".toList, "Braillino BL2".toList]

/-- The part of the `HandyTech` regex after the product-name group:
`"/" [[:upper:]][[:digit:]] "-" ([[:digit:]]+)`, anchored at the end of
the name (`regex_match` matches the whole string).  Returns the serial
group on success. -/
def tailSerial : List Char → Option (List Char)
  | '/' :: u :: d :: '-' :: serial =>
    if u.isUpper && d.isDigit && !serial.isEmpty && serial.all Char.isDigit
    then some serial else none
  | _ => none

/-- Model of `regex_match(name, Match, HandyTech)` in `Bluepairy::guessPIN`:
the whole name must be one of the product prefixes followed by the tail
pattern; on success the serial capture group is returned.  (`Match.size()
== 3` always holds on a successful match: the full match plus the two
capture groups.) -/
def matchHT (name : List Char) : Option (List Char) :=
  match htPrefixes.find? (fun q => q.isPrefixOf name) with
  | some q => tailSerial (name.drop q.length)
  | none => none

/-- The PIN derivation loop of `Bluepairy::guessPIN`: digit `i` of the
PIN is `((SerialNumber[I] - '0' + I + 1) % 10) + '0'`. -/
def pinDigits (serial : List Char) : List Char :=
  serial.enum.map (fun e => Char.ofNat (((e.2.toNat - '0'.toNat + e.1 + 1) % 10) + '0'.toNat))

/-- Model of `Bluepairy::guessPIN` on the device name: derive the PIN from the
serial when the `HandyTech` regex matches the whole name and the serial
has exactly five digits; otherwise return `"0000"`. -/
def guessPIN (name : List Char) : List Char :=
  match matchHT name with
  | some serial => if serial.length = 5 then pinDigits serial else "0000".toList
  | none => "0000".toList

/-- Modelled from the claim wording of C5 for comparison: the same
pattern with `<letter>` in place of the regex's `[[:upper:]]`. -/
def tailSerialAnyLetter : List Char → Option (List Char)
  | '/' :: u :: d :: '-' :: serial =>
    if u.isAlpha && d.isDigit && !serial.isEmpty && serial.all Char.isDigit
    then some serial else none
  | _ => none

/-- The claim-side PIN function (any letter after the slash); used to
exhibit where it departs from `guessPIN`. -/
def guessPINAnyLetter (name : List Char) : List Char :=
  match
    (match htPrefixes.find? (fun q => q.isPrefixOf name) with
     | some q => tailSerialAnyLetter (name.drop q.length)
     | none => none) with
  | some serial => if serial.length = 5 then pinDigits serial else "0000".toList
  | none => "0000".toList

/-- The typed remote-error taxonomy of `throwIfErrorIsSet`: the seven
`BlueZ::Error` subclasses plus the generic fallthrough, which in the C++
is a plain `std::runtime_error` carrying `name + ": " + message`. -/
inductive RemoteError where
  | alreadyConnected (msg : String)
  | alreadyExists (msg : String)
  | authenticationFailed (msg : String)
  | authenticationRejected (msg : String)
  | authenticationTimeout (msg : String)
  | connectionAttemptFailed (msg : String)
  | failed (msg : String)
  | generic (name msg : String)
deriving DecidableEq

/-- The `strcmp` chain of `throwIfErrorIsSet`, mapping a remote error
name to the thrown exception. -/
def decodeError (name msg : String) : RemoteError :=
  if name = "org.bluez.Error.AlreadyConnected" then .alreadyConnected msg
  else if name = "org.bluez.Error.AlreadyExists" then .alreadyExists msg
  else if name = "org.bluez.Error.AuthenticationFailed" then .authenticationFailed msg
  else if name = "org.bluez.Error.AuthenticationRejected" then .authenticationRejected msg
  else if name = "org.bluez.Error.AuthenticationTimeout" then .authenticationTimeout msg
  else if name = "org.bluez.Error.ConnectionAttemptFailed" then .connectionAttemptFailed msg
  else if name = "org.bluez.Error.Failed" then .failed msg
  else .generic name msg

/-- The seven remote error names `throwIfErrorIsSet` recognizes and maps
to `BlueZ::Error` subclasses. -/
def bluezErrorNames : List String :=
  ["org.bluez.Error.AlreadyConnected", "org.bluez.Error.AlreadyExists",
   "org.bluez.Error.AuthenticationFailed", "org.bluez.Error.AuthenticationRejected",
   "org.bluez.Error.AuthenticationTimeout", "org.bluez.Error.ConnectionAttemptFailed",
   "org.bluez.Error.Failed"]

/-- Whether `catch (BlueZ::Error &E)` in `main`'s pairing loop catches
the exception: true exactly for the seven typed subclasses; the generic
fallthrough is a plain `std::runtime_error`, which that handler does not
match. -/
def isBlueZError : RemoteError → Bool
  | .generic _ _ => false
  | _ => true

/-- Whether a pairing attempt succeeded. -/
def attemptOk (r : Except RemoteError Unit) : Bool :=
  match r with
  | .ok _ => true
  | .error _ => false

/-- The per-candidate pairing loop of `main` (the `for` over
`PairableDevices` with its `try`/`catch (BlueZ::Error&)`): each attempt
covers `Bluepairy::pair` plus `trust`; a caught error is logged and the
loop continues; an uncaught exception propagates and aborts the run.
Returns the visit log (device, success flag) or the escaping error. -/
def pairAll (attempt : Nat → Except RemoteError Unit) :
    List Nat → Except RemoteError (List (Nat × Bool))
  | [] => .ok []
  | i :: is =>
    match attempt i with
    | .ok _ => (pairAll attempt is).map ((i, true) :: ·)
    | .error e =>
      if isBlueZError e then (pairAll attempt is).map ((i, false) :: ·)
      else .error e

/-- Guard of the power-up wait loop in `Bluepairy::powerUpAllAdapters`
(`Adapter->exists() && !Adapter->isPowered() && now - StartTime <
seconds(1)`); `t` is the elapsed time in milliseconds. -/
def powerUpGuard (s : AdSt) (i : Nat) (t : Nat) : Bool :=
  adapterExists s i && !(adGet s i).powered && decide (t < 1000)

/-- Guard of the trust wait loop in `Bluepairy::trust`
(`Device->exists() && !Device->isTrusted()`); the loop has no time
bound. -/
def trustGuard (s : DevSt) (i : Nat) : Bool :=
  devExists s i && !(devGet s i).trusted

/-- Guard of the discovery wait loop in `Bluepairy::startDiscovery`
(`Adapter->exists() && !Adapter->isDiscovering()`); no time bound. -/
def discoveryGuard (s : AdSt) (i : Nat) : Bool :=
  adapterExists s i && !(adGet s i).discovering

/-- Guard of the wait loop in `Bluepairy::forget`
(`Device->exists()`). -/
def forgetGuard (s : DevSt) (i : Nat) : Bool :=
  devExists s i

/-- A loop guard parameterized by elapsed time is bounded by an explicit
timeout when some deadline falsifies it in every state. -/
def timeBounded (g : Nat → Bool) : Prop := ∃ T, ∀ t, T ≤ t → g t = false

/-- The value of the last payload entry named `k` whose variant `f`
accepts, scanning from the end (later entries overwrite earlier ones in
the decoder's fold). -/
def lastProp (k : String) (f : PropValue → Option α) : Payload → Option α
  | [] => none
  | e :: rest =>
    match lastProp k f rest with
    | some v => some v
    | none => if e.1 = k then f e.2 else none

/-- String variant extractor. -/
def asStr : PropValue → Option String
  | .str s => some s
  | _ => none

/-- Boolean variant extractor. -/
def asBool : PropValue → Option Bool
  | .boolean b => some b
  | _ => none

/-- String-array variant extractor. -/
def asArr : PropValue → Option (List String)
  | .strArray l => some l
  | _ => none

/-- Object-path variant extractor. -/
def asPath : PropValue → Option String
  | .objectPath p => some p
  | _ => none

/-- The adapter object path carried by an entry, when it is an
`("Adapter", object path)` entry. -/
def adPathOf (e : String × PropValue) : Option String :=
  if e.1 = "Adapter" then asPath e.2 else none

/-- Relation stating `s'` extends `s` by appends to heap and registry; every
mutation of the adapter state performed by the decoder is of this
shape. -/
def AdSt.Ext (s s' : AdSt) : Prop :=
  (∃ h, s'.heap = s.heap ++ h) ∧ (∃ r, s'.reg = s.reg ++ r)

/-- The property-name keys a `BlueZ::Device` reacts to. -/
def deviceKeys : List String :=
  ["Name", "Address", "Paired", "Trusted", "Connected", "UUIDs", "Adapter"]

theorem charsLt_asymm {a b : List Char} (h : charsLt a b = true) : charsLt b a = false := by
  induction a generalizing b with
  | nil =>
    cases b with
    | nil => simp [charsLt] at h
    | cons y ys => simp [charsLt]
  | cons x xs ih =>
    cases b with
    | nil => simp [charsLt] at h
    | cons y ys =>
      simp only [charsLt] at h ⊢
      rcases lt_trichotomy x y with hxy | hxy | hxy
      · rw [if_neg (lt_asymm hxy), if_pos hxy]
      · subst hxy
        rw [if_neg (lt_irrefl x), if_neg (lt_irrefl x)] at h ⊢
        exact ih h
      · rw [if_neg (lt_asymm hxy), if_pos hxy] at h
        exact absurd h (by simp)

theorem charsLt_irrefl (a : List Char) : charsLt a a = false := by
  cases h : charsLt a a
  · rfl
  · have h2 := charsLt_asymm h
    rw [h] at h2
    exact h2

theorem charsLt_trans {a b c : List Char} (h1 : charsLt a b = true)
    (h2 : charsLt b c = true) : charsLt a c = true := by
  induction a generalizing b c with
  | nil =>
    cases c with
    | nil =>
      cases b with
      | nil => simp [charsLt] at h1
      | cons y ys => simp [charsLt] at h2
    | cons z zs => simp [charsLt]
  | cons x xs ih =>
    cases b with
    | nil => simp [charsLt] at h1
    | cons y ys =>
      cases c with
      | nil => simp [charsLt] at h2
      | cons z zs =>
        simp only [charsLt] at h1 h2 ⊢
        rcases lt_trichotomy x y with hxy | hxy | hxy
        · rcases lt_trichotomy y z with hyz | hyz | hyz
          · rw [if_pos (lt_trans hxy hyz)]
          · subst hyz; rw [if_pos hxy]
          · rw [if_neg (lt_asymm hyz), if_pos hyz] at h2
            exact absurd h2 (by simp)
        · subst hxy
          rcases lt_trichotomy x z with hxz | hxz | hxz
          · rw [if_pos hxz]
          · subst hxz
            rw [if_neg (lt_irrefl x), if_neg (lt_irrefl x)] at h1 h2 ⊢
            exact ih h1 h2
          · rw [if_neg (lt_asymm hxz), if_pos hxz] at h2
            exact absurd h2 (by simp)
        · rw [if_neg (lt_asymm hxy), if_pos hxy] at h1
          exact absurd h1 (by simp)

theorem charsLt_eq {a b : List Char} (h1 : charsLt a b = false)
    (h2 : charsLt b a = false) : a = b := by
  induction a generalizing b with
  | nil =>
    cases b with
    | nil => rfl
    | cons y ys => simp [charsLt] at h1
  | cons x xs ih =>
    cases b with
    | nil => simp [charsLt] at h2
    | cons y ys =>
      simp only [charsLt] at h1 h2
      rcases lt_trichotomy x y with hxy | hxy | hxy
      · rw [if_pos hxy] at h1
        exact absurd h1 (by simp)
      · subst hxy
        rw [if_neg (lt_irrefl x), if_neg (lt_irrefl x)] at h1 h2
        rw [ih h1 h2]
      · rw [if_pos hxy] at h2
        exact absurd h2 (by simp)

theorem toList_inj {s t : String} (h : s.toList = t.toList) : s = t := by
  cases s; cases t
  simp only [String.toList] at h
  simp [h]

theorem strLt_asymm {a b : String} (h : strLt a b = true) : strLt b a = false :=
  charsLt_asymm h

theorem strLt_irrefl (a : String) : strLt a a = false :=
  charsLt_irrefl a.toList

theorem strLt_trans {a b c : String} (h1 : strLt a b = true)
    (h2 : strLt b c = true) : strLt a c = true :=
  charsLt_trans h1 h2

theorem strLt_eq {a b : String} (h1 : strLt a b = false)
    (h2 : strLt b a = false) : a = b :=
  toList_inj (charsLt_eq h1 h2)

theorem strLt_total (a b : String) : strLt a b = true ∨ strLt b a = true ∨ a = b := by
  cases h1 : strLt a b
  · cases h2 : strLt b a
    · exact Or.inr (Or.inr (strLt_eq h1 h2))
    · exact Or.inr (Or.inl rfl)
  · exact Or.inl rfl

theorem mem_setInsert {y x : String} {l : List String} :
    y ∈ setInsert x l ↔ y = x ∨ y ∈ l := by
  induction l with
  | nil => simp [setInsert]
  | cons z zs ih =>
    rw [setInsert]
    by_cases h1 : strLt x z = true
    · rw [if_pos h1]
      simp
    · rw [if_neg h1]
      by_cases h2 : strLt z x = true
      · rw [if_pos h2]
        simp only [List.mem_cons, ih]
        tauto
      · rw [if_neg h2]
        have h1' : strLt x z = false := by simpa using h1
        have h2' : strLt z x = false := by simpa using h2
        have hxz : x = z := strLt_eq h1' h2'
        subst hxz
        simp only [List.mem_cons]
        tauto

theorem mem_setOfList {u : String} {l : List String} : u ∈ setOfList l ↔ u ∈ l := by
  have general : ∀ (l acc : List String),
      u ∈ l.foldl (fun acc v => setInsert v acc) acc ↔ u ∈ acc ∨ u ∈ l := by
    intro l
    induction l with
    | nil => simp
    | cons x xs ih =>
      intro acc
      rw [List.foldl_cons, ih, mem_setInsert]
      simp only [List.mem_cons]
      tauto
  rw [setOfList, general]
  simp

theorem setIntersection_cons_nil {a : String} {as bs : List String}
    (hD : bs.dropWhile (fun b => strLt b a) = []) :
    setIntersection (a :: as) bs = [] := by
  rw [setIntersection, hD]

theorem setIntersection_cons_cons {a : String} {as bs : List String} {b : String}
    {bs' : List String} (hD : bs.dropWhile (fun b => strLt b a) = b :: bs') :
    setIntersection (a :: as) bs =
      if strLt a b then setIntersection as (b :: bs') else a :: setIntersection as bs' := by
  rw [setIntersection, hD]

theorem mem_setIntersection_left {x : String} {A E : List String}
    (h : x ∈ setIntersection A E) : x ∈ A := by
  induction A generalizing E with
  | nil => simp [setIntersection] at h
  | cons a as ih =>
    rcases hD : E.dropWhile (fun b => strLt b a) with _ | ⟨b, bs⟩
    · rw [setIntersection_cons_nil hD] at h
      simp at h
    · rw [setIntersection_cons_cons hD] at h
      by_cases hab : strLt a b = true
      · rw [if_pos hab] at h
        exact List.mem_cons_of_mem _ (ih h)
      · rw [if_neg hab] at h
        rcases List.mem_cons.mp h with rfl | h'
        · exact List.mem_cons_self _ _
        · exact List.mem_cons_of_mem _ (ih h')

theorem setIntersection_eq_self {A E : List String}
    (hA : A.Pairwise (fun a b => strLt a b = true))
    (hE : E.Pairwise (fun a b => strLt a b = true))
    (hsub : ∀ x ∈ E, x ∈ A) : setIntersection A E = E := by
  induction A generalizing E with
  | nil =>
    cases E with
    | nil => rfl
    | cons e es => exact absurd (hsub e (List.mem_cons_self _ _)) (by simp)
  | cons a as ih =>
    cases E with
    | nil => simp [setIntersection]
    | cons e es =>
      rw [List.pairwise_cons] at hA hE
      rcases List.mem_cons.mp (hsub e (List.mem_cons_self _ _)) with rfl | hmem
      · have hD : (e :: es).dropWhile (fun b => strLt b e) = e :: es := by
          rw [List.dropWhile_cons, if_neg (by simp [strLt_irrefl])]
        rw [setIntersection_cons_cons hD, if_neg (by simp [strLt_irrefl])]
        have heq : setIntersection as es = es := by
          apply ih hA.2 hE.2
          intro x hx
          rcases List.mem_cons.mp (hsub x (List.mem_cons_of_mem _ hx)) with rfl | h
          · exact absurd (hE.1 x hx) (by simp [strLt_irrefl])
          · exact h
        rw [heq]
      · have hae : strLt a e = true := hA.1 e hmem
        have hD : (e :: es).dropWhile (fun b => strLt b a) = e :: es := by
          rw [List.dropWhile_cons, if_neg (by simp [strLt_asymm hae])]
        rw [setIntersection_cons_cons hD, if_pos hae]
        apply ih hA.2 (List.pairwise_cons.mpr hE)
        intro x hx
        rcases List.mem_cons.mp hx with rfl | hx'
        · exact hmem
        · rcases List.mem_cons.mp (hsub x (List.mem_cons_of_mem _ hx')) with rfl | h
          · exact absurd (strLt_trans hae (hE.1 x hx')) (by simp [strLt_irrefl])
          · exact h

theorem hasExpectedProfiles_iff (exp : List String) (d : Device)
    (hd : d.uuids.Pairwise (fun a b => strLt a b = true))
    (he : exp.Pairwise (fun a b => strLt a b = true)) :
    hasExpectedProfiles exp d = true ↔ ∀ u ∈ exp, u ∈ d.uuids := by
  rw [hasExpectedProfiles, beq_iff_eq]
  constructor
  · intro h u hu
    rw [← h] at hu
    exact mem_setIntersection_left hu
  · intro h
    exact setIntersection_eq_self hd he h

theorem sortStrings_sorted (l : List String) :
    (sortStrings l).Pairwise (fun a b => strLt b a = false) := by
  haveI htot : IsTotal String (fun a b => (!(strLt b a)) = true) := by
    constructor
    intro a b
    rcases strLt_total a b with h | h | rfl
    · exact Or.inl (by simp [strLt_asymm h])
    · exact Or.inr (by simp [strLt_asymm h])
    · exact Or.inl (by simp [strLt_irrefl])
  haveI htrans : IsTrans String (fun a b => (!(strLt b a)) = true) := by
    constructor
    intro a b c h1 h2
    simp only [Bool.not_eq_true'] at h1 h2 ⊢
    cases hca : strLt c a
    · rfl
    · rcases strLt_total a b with hab | hba | heq
      · exact absurd (strLt_trans hca hab) (by simp [h2])
      · exact absurd hba (by simp [h1])
      · subst heq
        exact absurd hca (by simp [h2])
  have := List.sorted_insertionSort (fun a b => (!(strLt b a)) = true) l
  exact this.imp (by intro a b h; simpa using h)

theorem sortStrings_perm (l : List String) : (sortStrings l).Perm l :=
  List.perm_insertionSort _ l

theorem sorted_strict_of_nodup {l : List String}
    (hs : l.Pairwise (fun a b => strLt b a = false)) (hn : l.Nodup) :
    l.Pairwise (fun a b => strLt a b = true) := by
  have := hs.and hn
  exact this.imp (by
    intro a b h
    rcases strLt_total a b with h1 | h1 | h1
    · exact h1
    · exact absurd h1 (by simp [h.1])
    · exact absurd h1 h.2)

/-- Claim C4, counterexample to the claim as stated: the startup list
`["a", "a"]` (legal on the command line, e.g. `-c a -c a`) yields the
Expected Profile Set `["a", "a"]`, which is sorted but not deduplicated,
and for a device offering exactly the profile `"a"` every expected UUID
is an element of the device's profile set while `hasExpectedProfiles`
still returns `false` (the intersection `["a"]` differs from the
expected vector `["a", "a"]`). -/
theorem c4_cex :
    buildExpected ["a", "a"] false = ["a", "a"] ∧
    ¬ (buildExpected ["a", "a"] false).Nodup ∧
    (∀ u ∈ buildExpected ["a", "a"] false,
      u ∈ (⟨"/d0", none, "", false, "", false, false, ["a"]⟩ : Device).uuids) ∧
    hasExpectedProfiles (buildExpected ["a", "a"] false)
      ⟨"/d0", none, "", false, "", false, false, ["a"]⟩ = false := by
  refine ⟨by decide, by decide, by decide, by decide⟩

/-- Claim C4, amended: the Expected Profile Set is the sorted
rearrangement of the startup UUID list (with the `--hid` append), not
deduplicated; whenever it is duplicate-free — and for every device whose
profile set is a valid `std::set` sequence — `hasExpectedProfiles`
returns true iff every expected UUID is an element of the device's
profile-UUID set. -/
theorem c4_expected_profiles (l : List String) (hid : Bool) (d : Device)
    (hd : d.uuids.Pairwise (fun a b => strLt a b = true)) :
    (buildExpected l hid).Pairwise (fun a b => strLt b a = false) ∧
    (buildExpected l hid).Perm (l ++ if hid then [hidUUID] else []) ∧
    ((buildExpected l hid).Nodup →
      (hasExpectedProfiles (buildExpected l hid) d = true ↔
        ∀ u ∈ buildExpected l hid, u ∈ d.uuids)) := by
  refine ⟨sortStrings_sorted _, sortStrings_perm _, fun hn => ?_⟩
  exact hasExpectedProfiles_iff (buildExpected l hid) d hd
    (sorted_strict_of_nodup (sortStrings_sorted _) hn)

/-- Witness for `c4_expected_profiles` at a concrete startup list and
device. -/
theorem c4_expected_profiles_witness :
    hasExpectedProfiles (buildExpected ["b", "a"] true)
      ⟨"/d0", none, "", false, "", false, false, [hidUUID, "a", "b"]⟩ = true := by
  have h := c4_expected_profiles ["b", "a"] true
    ⟨"/d0", none, "", false, "", false, false, [hidUUID, "a", "b"]⟩ (by decide)
  exact (h.2.2 (by decide)).mpr (by decide)

theorem not_isPrefixOf_of (q pfx : List Char) (h1 : ¬ q <+: pfx) (h2 : '/' ∉ q)
    (rest : List Char) : q.isPrefixOf (pfx ++ '/' :: rest) = false := by
  by_contra h
  have hpre : q <+: pfx ++ '/' :: rest :=
    List.isPrefixOf_iff_prefix.mp (by simpa using h)
  rcases le_or_lt q.length pfx.length with hle | hlt
  · exact h1 (List.prefix_of_prefix_length_le hpre (List.prefix_append _ _) hle)
  · have hassoc : pfx ++ '/' :: rest = (pfx ++ ['/']) ++ rest := by simp
    have hp2 : (pfx ++ ['/']) <+: pfx ++ '/' :: rest := by
      rw [hassoc]
      exact List.prefix_append _ _
    have hsub : (pfx ++ ['/']) <+: q :=
      List.prefix_of_prefix_length_le hp2 hpre (by simpa using hlt)
    exact h2 (hsub.subset (by simp))

theorem find?_htPrefixes {pfx : List Char} (hp : pfx ∈ htPrefixes) (rest : List Char) :
    htPrefixes.find? (fun q => q.isPrefixOf (pfx ++ '/' :: rest)) = some pfx := by
  have self : pfx.isPrefixOf (pfx ++ '/' :: rest) = true :=
    List.isPrefixOf_iff_prefix.mpr (List.prefix_append _ _)
  simp only [htPrefixes, List.mem_cons, List.not_mem_nil, or_false] at hp
  rcases hp with rfl | rfl | rfl | rfl | rfl | rfl
  · simp [htPrefixes, List.find?_cons, self]
  · have n1 := not_isPrefixOf_of "Actilino ALO".toList
      "Active Braille AB4".toList (by decide) (by decide) rest
    simp [htPrefixes, List.find?_cons, n1, self]
  · have n1 := not_isPrefixOf_of "Actilino ALO".toList
      "Active Star AS4".toList (by decide) (by decide) rest
    have n2 := not_isPrefixOf_of "Active Braille AB4".toList
      "Active Star AS4".toList (by decide) (by decide) rest
    simp [htPrefixes, List.find?_cons, n1, n2, self]
  · have n1 := not_isPrefixOf_of "Actilino ALO".toList
      "Basic Braille BB4".toList (by decide) (by decide) rest
    have n2 := not_isPrefixOf_of "Active Braille AB4".toList
      "Basic Braille BB4".toList (by decide) (by decide) rest
    have n3 := not_isPrefixOf_of "Active Star AS4".toList
      "Basic Braille BB4".toList (by decide) (by decide) rest
    simp [htPrefixes, List.find?_cons, n1, n2, n3, self]
  · have n1 := not_isPrefixOf_of "Actilino ALO".toList
      "Braille Star 40 BS4".toList (by decide) (by decide) rest
    have n2 := not_isPrefixOf_of "Active Braille AB4".toList
      "Braille Star 40 BS4".toList (by decide) (by decide) rest
    have n3 := not_isPrefixOf_of "Active Star AS4".toList
      "Braille Star 40 BS4".toList (by decide) (by decide) rest
    have n4 := not_isPrefixOf_of "Basic Braille BB4".toList
      "Braille Star 40 BS4".toList (by decide) (by decide) rest
    simp [htPrefixes, List.find?_cons, n1, n2, n3, n4, self]
  · have n1 := not_isPrefixOf_of "Actilino ALO".toList
      "Braillino BL2".toList (by decide) (by decide) rest
    have n2 := not_isPrefixOf_of "Active Braille AB4".toList
      "Braillino BL2".toList (by decide) (by decide) rest
    have n3 := not_isPrefixOf_of "Active Star AS4".toList
      "Braillino BL2".toList (by decide) (by decide) rest
    have n4 := not_isPrefixOf_of "Basic Braille BB4".toList
      "Braillino BL2".toList (by decide) (by decide) rest
    have n5 := not_isPrefixOf_of "Braille Star 40 BS4".toList
      "Braillino BL2".toList (by decide) (by decide) rest
    simp [htPrefixes, List.find?_cons, n1, n2, n3, n4, n5, self]

theorem matchHT_pos {pfx : List Char} (hp : pfx ∈ htPrefixes) {u d : Char}
    {serial : List Char} (hu : u.isUpper = true) (hd : d.isDigit = true)
    (hne : serial ≠ []) (hdig : serial.all Char.isDigit = true) :
    matchHT (pfx ++ '/' :: u :: d :: '-' :: serial) = some serial := by
  rw [matchHT, find?_htPrefixes hp]
  dsimp only
  rw [List.drop_left, tailSerial]
  have hem : serial.isEmpty = false := by
    cases serial
    · exact absurd rfl hne
    · rfl
  rw [hu, hd, hem, hdig]
  simp

/-- Claim C5, counterexample to the claim as stated: the claim admits any
letter after the slash (`'/<letter><digit>-<serial>'`), but the regex in
`Bluepairy::guessPIN` requires an uppercase letter (`[[:upper:]]`).  For
the name `"Active Braille AB4/b1-12345"` the claim's reading derives the
PIN `"24680"` from the 5-digit serial while the code returns the literal
`"0000"`. -/
theorem c5_cex :
    guessPIN "Active Braille AB4/b1-12345".toList = "0000".toList ∧
    guessPINAnyLetter "Active Braille AB4/b1-12345".toList = "24680".toList ∧
    "0000".toList ≠ "24680".toList := by
  refine ⟨by decide, by decide, by decide⟩

/-- Claim C5, amended (uppercase letter): a device name consisting of one
of the six product prefixes, a slash, an uppercase letter, a digit, a
dash and a 5-digit serial yields the PIN whose i-th digit is
`(serialDigit[i] - '0' + i + 1) mod 10`; a name the pattern does not
match, or whose serial is not exactly 5 digits, yields the literal
`"0000"`.  The spec's two examples are included. -/
theorem c5_guess_pin :
    (∀ pfx ∈ htPrefixes, ∀ (u d : Char) (serial : List Char),
      u.isUpper = true → d.isDigit = true → serial.all Char.isDigit = true →
      serial.length = 5 →
      guessPIN (pfx ++ '/' :: u :: d :: '-' :: serial) = pinDigits serial) ∧
    (∀ name, matchHT name = none → guessPIN name = "0000".toList) ∧
    (∀ name serial, matchHT name = some serial → serial.length ≠ 5 →
      guessPIN name = "0000".toList) ∧
    guessPIN "Active Braille AB4/B1-12345".toList = "24680".toList ∧
    guessPIN "Unknown Device".toList = "0000".toList := by
  refine ⟨?_, ?_, ?_, by decide, by decide⟩
  · intro pfx hp u d serial hu hd hdig hlen
    have hne : serial ≠ [] := by
      intro h
      rw [h] at hlen
      simp at hlen
    rw [guessPIN, matchHT_pos hp hu hd hne hdig]
    dsimp only
    rw [if_pos hlen]
  · intro name h
    rw [guessPIN, h]
  · intro name serial h hlen
    rw [guessPIN, h]
    simp [hlen]

/-- Witness for `c5_guess_pin` at a concrete prefix, uppercase letter and
serial. -/
theorem c5_guess_pin_witness :
    guessPIN ("Active Star AS4".toList ++ '/' :: 'C' :: '2' :: '-' :: "54321".toList) =
      pinDigits "54321".toList :=
  c5_guess_pin.1 "Active Star AS4".toList (by decide) 'C' '2' "54321".toList
    (by decide) (by decide) (by decide) (by decide)

theorem devUsable_eq_some {pat : String → Bool} {exp : List String} {ads : AdSt}
    {d : Device} {a : Nat} (ha : d.adapterRef = some a) :
    devUsable pat exp ads d =
      ((adGet ads a).powered && d.paired && pat d.name && hasExpectedProfiles exp d) := by
  rw [devUsable, ha]

theorem devPairable_eq_some {pat : String → Bool} {exp : List String} {ads : AdSt}
    {d : Device} {a : Nat} (ha : d.adapterRef = some a) :
    devPairable pat exp ads d =
      (adapterExists ads a && (adGet ads a).powered && !d.paired
        && pat d.name && hasExpectedProfiles exp d) := by
  rw [devPairable, ha]

theorem usableFrom_eq_filter (pat : String → Bool) (exp : List String) (st : St)
    (is : List Nat) (h : ∀ i ∈ is, (devGet st.devs i).adapterRef.isSome = true) :
    usableFrom pat exp st is =
      some (is.filter (fun i => devUsable pat exp st.ads (devGet st.devs i))) := by
  induction is with
  | nil => rfl
  | cons i is ih =>
    obtain ⟨a, ha⟩ := Option.isSome_iff_exists.mp (h i (List.mem_cons_self _ _))
    rw [usableFrom, ha, List.filter_cons]
    dsimp only
    rw [devUsable_eq_some ha, ih (fun j hj => h j (List.mem_cons_of_mem _ hj))]
    by_cases hc : ((adGet st.ads a).powered && (devGet st.devs i).paired
        && pat (devGet st.devs i).name && hasExpectedProfiles exp (devGet st.devs i)) = true
    · rw [if_pos hc, if_pos hc]
      rfl
    · rw [if_neg hc, if_neg hc]

theorem pairableFrom_eq_filter (pat : String → Bool) (exp : List String) (st : St)
    (is : List Nat) (h : ∀ i ∈ is, (devGet st.devs i).adapterRef.isSome = true) :
    pairableFrom pat exp st is =
      some (is.filter (fun i => devPairable pat exp st.ads (devGet st.devs i))) := by
  induction is with
  | nil => rfl
  | cons i is ih =>
    obtain ⟨a, ha⟩ := Option.isSome_iff_exists.mp (h i (List.mem_cons_self _ _))
    rw [pairableFrom, ha, List.filter_cons]
    dsimp only
    rw [devPairable_eq_some ha, ih (fun j hj => h j (List.mem_cons_of_mem _ hj))]
    by_cases hc : (adapterExists st.ads a && (adGet st.ads a).powered
        && !(devGet st.devs i).paired && pat (devGet st.devs i).name
        && hasExpectedProfiles exp (devGet st.devs i)) = true
    · rw [if_pos hc, if_pos hc]
      rfl
    · rw [if_neg hc, if_neg hc]

theorem usableFrom_none (pat : String → Bool) (exp : List String) (st : St)
    (is : List Nat) (i : Nat) (hi : i ∈ is)
    (hnone : (devGet st.devs i).adapterRef = none) :
    usableFrom pat exp st is = none := by
  induction is with
  | nil => simp at hi
  | cons j js ih =>
    rcases List.mem_cons.mp hi with rfl | hmem
    · rw [usableFrom, hnone]
    · rw [usableFrom]
      cases href : (devGet st.devs j).adapterRef with
      | none => rfl
      | some a =>
        dsimp only
        rw [ih hmem]
        split <;> rfl

/-- Claim C1, counterexample to the claim as stated: in a state whose
expected UUID list carries a repetition (`["a", "a"]`, legal at startup),
the registered device 0 has a powered adapter, is paired, matches the
(everything-matching) name pattern and offers every expected UUID, yet
`usableDevices` returns the empty list — membership is not equivalent to
the claimed subset condition. -/
theorem c1_cex :
    usableDevices (fun _ => true) ["a", "a"]
        ⟨⟨[⟨"/a0", "", "", true, false⟩], [0]⟩,
         ⟨[⟨"/d0", some 0, "", false, "", true, false, ["a"]⟩], [0]⟩⟩ = some [] ∧
    0 ∈ (⟨⟨[⟨"/a0", "", "", true, false⟩], [0]⟩,
         ⟨[⟨"/d0", some 0, "", false, "", true, false, ["a"]⟩], [0]⟩⟩ : St).devs.reg ∧
    (devGet ⟨[⟨"/d0", some 0, "", false, "", true, false, ["a"]⟩], [0]⟩ 0).adapterRef
      = some 0 ∧
    (adGet ⟨[⟨"/a0", "", "", true, false⟩], [0]⟩ 0).powered = true ∧
    (devGet ⟨[⟨"/d0", some 0, "", false, "", true, false, ["a"]⟩], [0]⟩ 0).paired = true ∧
    (∀ u ∈ (["a", "a"] : List String),
      u ∈ (devGet ⟨[⟨"/d0", some 0, "", false, "", true, false, ["a"]⟩], [0]⟩ 0).uuids) ∧
    0 ∉ ([] : List Nat) := by
  refine ⟨by decide, by decide, by decide, by decide, by decide, by decide, by decide⟩

/-- Claim C1, amended: provided every registered device's adapter
reference is set (the precondition of claim C10) and the expected UUID
list is duplicate-free, a registered device is in the result of
`usableDevices` iff its adapter is powered, it is paired, the name
pattern matches its name, and every expected UUID is an element of its
profile-UUID set.  The sortedness hypotheses are the representation
invariants of the sorted `ExpectedUUIDs` vector and of
`std::set<std::string>`. -/
theorem c1_usable_iff (pat : String → Bool) (exp : List String) (st : St)
    (hrefs : ∀ i ∈ st.devs.reg, (devGet st.devs i).adapterRef.isSome = true)
    (hsort : exp.Pairwise (fun a b => strLt b a = false))
    (hnd : exp.Nodup)
    (huu : ∀ i ∈ st.devs.reg,
      (devGet st.devs i).uuids.Pairwise (fun a b => strLt a b = true)) :
    ∃ l, usableDevices pat exp st = some l ∧
      ∀ i ∈ st.devs.reg,
        (i ∈ l ↔
          (∃ a, (devGet st.devs i).adapterRef = some a ∧ (adGet st.ads a).powered = true) ∧
          (devGet st.devs i).paired = true ∧
          pat (devGet st.devs i).name = true ∧
          ∀ u ∈ exp, u ∈ (devGet st.devs i).uuids) := by
  refine ⟨_, usableFrom_eq_filter pat exp st st.devs.reg hrefs, ?_⟩
  intro i hi
  rw [List.mem_filter]
  obtain ⟨a, ha⟩ := Option.isSome_iff_exists.mp (hrefs i hi)
  have hexp := hasExpectedProfiles_iff exp (devGet st.devs i) (huu i hi)
    (sorted_strict_of_nodup hsort hnd)
  constructor
  · rintro ⟨-, hcond⟩
    rw [devUsable_eq_some ha] at hcond
    simp only [Bool.and_eq_true] at hcond
    exact ⟨⟨a, ha, hcond.1.1.1⟩, hcond.1.1.2, hcond.1.2, hexp.mp hcond.2⟩
  · rintro ⟨⟨a', ha', hpow⟩, hpaired, hpat, hsub⟩
    have haa : a' = a := by
      rw [ha] at ha'
      exact (Option.some.inj ha').symm
    subst haa
    refine ⟨hi, ?_⟩
    rw [devUsable_eq_some ha]
    simp only [Bool.and_eq_true]
    exact ⟨⟨⟨hpow, hpaired⟩, hpat⟩, hexp.mpr hsub⟩

/-- Witness for `c1_usable_iff`: a one-adapter one-device state where the
device is usable. -/
theorem c1_usable_iff_witness :
    ∃ l, usableDevices (fun _ => true) ["a"]
        ⟨⟨[⟨"/a0", "", "", true, false⟩], [0]⟩,
         ⟨[⟨"/d0", some 0, "", false, "", true, false, ["a"]⟩], [0]⟩⟩ = some l ∧
      ∀ i ∈ (⟨⟨[⟨"/a0", "", "", true, false⟩], [0]⟩,
         ⟨[⟨"/d0", some 0, "", false, "", true, false, ["a"]⟩], [0]⟩⟩ : St).devs.reg,
        (i ∈ l ↔
          (∃ a, (devGet ⟨[⟨"/d0", some 0, "", false, "", true, false, ["a"]⟩], [0]⟩
              i).adapterRef = some a ∧
            (adGet ⟨[⟨"/a0", "", "", true, false⟩], [0]⟩ a).powered = true) ∧
          (devGet ⟨[⟨"/d0", some 0, "", false, "", true, false, ["a"]⟩], [0]⟩ i).paired
            = true ∧
          (fun _ => true)
            ((devGet ⟨[⟨"/d0", some 0, "", false, "", true, false, ["a"]⟩], [0]⟩ i).name)
            = true ∧
          ∀ u ∈ (["a"] : List String),
            u ∈ (devGet ⟨[⟨"/d0", some 0, "", false, "", true, false, ["a"]⟩], [0]⟩
              i).uuids) :=
  c1_usable_iff (fun _ => true) ["a"] _ (by decide) (by decide) (by decide) (by decide)

/-- Claim C10: `usableDevices` and `pairableDevices` dereference every
registered device's adapter reference unconditionally; under the
precondition that every reference is set they are free of the null
dereference and return exactly the registered devices satisfying their
respective predicates; a single unset reference crashes `usableDevices`
(modelled `none`); and a device freshly created by the registry — as by
the `RequestPinCode` handler resolving an unseen identity through
`getDevice` — has an unset adapter reference. -/
theorem c10_adapter_deref (pat : String → Bool) (exp : List String) (st : St)
    (h : ∀ i ∈ st.devs.reg, (devGet st.devs i).adapterRef.isSome = true) :
    usableDevices pat exp st =
      some (st.devs.reg.filter (fun i => devUsable pat exp st.ads (devGet st.devs i))) ∧
    pairableDevices pat exp st =
      some (st.devs.reg.filter (fun i => devPairable pat exp st.ads (devGet st.devs i))) ∧
    (∀ (st' : St) (i : Nat), i ∈ st'.devs.reg →
      (devGet st'.devs i).adapterRef = none →
      usableDevices pat exp st' = none) ∧
    (∀ (t : DevSt) (p : String), (∀ i ∈ t.reg, (devGet t i).path ≠ p) →
      (devGet (getDevice t p).1 (getDevice t p).2).adapterRef = none) := by
  refine ⟨usableFrom_eq_filter pat exp st st.devs.reg h,
    pairableFrom_eq_filter pat exp st st.devs.reg h,
    fun st' i hi hnone => usableFrom_none pat exp st' st'.devs.reg i hi hnone,
    fun t p habs => ?_⟩
  have hfind : t.reg.find? (fun i => (devGet t i).path == p) = none := by
    rw [List.find?_eq_none]
    intro i hi
    simpa using habs i hi
  rw [getDevice, hfind]
  dsimp only
  rw [devGet, List.getD_eq_getElem?_getD, List.getElem?_append]
  simp [mkDevice]

/-- Witness for `c10_adapter_deref` at a concrete state. -/
theorem c10_adapter_deref_witness :
    usableDevices (fun _ => false) []
        ⟨⟨[⟨"/a1", "", "", false, false⟩], [0]⟩,
         ⟨[⟨"/d1", some 0, "", false, "", false, false, []⟩], [0]⟩⟩ =
      some (List.filter
        (fun i => devUsable (fun _ => false) [] ⟨[⟨"/a1", "", "", false, false⟩], [0]⟩
          (devGet ⟨[⟨"/d1", some 0, "", false, "", false, false, []⟩], [0]⟩ i)) [0]) :=
  (c10_adapter_deref (fun _ => false) []
    ⟨⟨[⟨"/a1", "", "", false, false⟩], [0]⟩,
     ⟨[⟨"/d1", some 0, "", false, "", false, false, []⟩], [0]⟩⟩ (by decide)).1

theorem option_getD_self (o : Option α) (x : α) : o.getD (o.getD x) = o.getD x := by
  cases o <;> rfl

theorem lastProp_cons_getD (k : String) (f : PropValue → Option α)
    (e : String × PropValue) (P : Payload) (x : α) :
    (lastProp k f (e :: P)).getD x =
      (lastProp k f P).getD ((if e.1 = k then f e.2 else none).getD x) := by
  rw [lastProp]
  cases lastProp k f P <;> simp

theorem lastProp_cons_map_getD (k : String) (f : PropValue → Option α) (g : α → β)
    (e : String × PropValue) (P : Payload) (x : β) :
    ((lastProp k f (e :: P)).map g).getD x =
      ((lastProp k f P).map g).getD (((if e.1 = k then f e.2 else none).map g).getD x) := by
  rw [lastProp]
  cases lastProp k f P <;> simp

theorem lastProp_eq_none {k : String} {f : PropValue → Option α} :
    ∀ {P : Payload}, (∀ e ∈ P, e.1 ≠ k) → lastProp k f P = none
  | [], _ => rfl
  | e :: P, h => by
    rw [lastProp, lastProp_eq_none (fun x hx => h x (List.mem_cons_of_mem _ hx)),
      if_neg (h e (List.mem_cons_self _ _))]

theorem lastProp_of_mem {k : String} {f : PropValue → Option α} {v : PropValue} {x : α} :
    ∀ {P : Payload}, (P.map Prod.fst).Nodup → (k, v) ∈ P → f v = some x →
      lastProp k f P = some x
  | e :: P, hnd, hmem, hf => by
    rw [List.map_cons, List.nodup_cons] at hnd
    rcases List.mem_cons.mp hmem with heq | hmem'
    · subst heq
      have habs : ∀ e' ∈ P, e'.1 ≠ k := by
        intro e' he' hcontra
        have hmm : e'.1 ∈ P.map Prod.fst := List.mem_map_of_mem Prod.fst he'
        rw [hcontra] at hmm
        exact hnd.1 hmm
      rw [lastProp, lastProp_eq_none habs, if_pos rfl, hf]
    · rw [lastProp, lastProp_of_mem hnd.2 hmem' hf]

theorem applyPropA_eq (a : Adapter) (e : String × PropValue) :
    Adapter.applyProp a e =
      { path := a.path,
        address := (if e.1 = "Address" then asStr e.2 else none).getD a.address,
        name := (if e.1 = "Name" then asStr e.2 else none).getD a.name,
        powered := (if e.1 = "Powered" then asBool e.2 else none).getD a.powered,
        discovering := (if e.1 = "Discovering" then asBool e.2 else none).getD a.discovering } := by
  rcases e with ⟨k, v⟩
  by_cases h1 : k = "Powered"
  · subst h1; cases v <;> simp +decide [Adapter.applyProp, asBool, asStr]
  · by_cases h2 : k = "Discovering"
    · subst h2; cases v <;> simp +decide [Adapter.applyProp, asBool, asStr]
    · by_cases h3 : k = "Address"
      · subst h3; cases v <;> simp +decide [Adapter.applyProp, asBool, asStr]
      · by_cases h4 : k = "Name"
        · subst h4; cases v <;> simp +decide [Adapter.applyProp, asBool, asStr]
        · simp [Adapter.applyProp, h1, h2, h3, h4]

theorem adapterDecode_eq (P : Payload) : ∀ (a : Adapter),
    Adapter.onPropertiesChanged a P =
      { path := a.path,
        address := (lastProp "Address" asStr P).getD a.address,
        name := (lastProp "Name" asStr P).getD a.name,
        powered := (lastProp "Powered" asBool P).getD a.powered,
        discovering := (lastProp "Discovering" asBool P).getD a.discovering } := by
  induction P with
  | nil => intro a; rfl
  | cons e P ih =>
    intro a
    have hcons : Adapter.onPropertiesChanged a (e :: P)
        = Adapter.onPropertiesChanged (Adapter.applyProp a e) P := rfl
    rw [hcons, ih, applyPropA_eq]
    simp only [lastProp_cons_getD]

theorem applyPropD_eq (s : AdSt) (d : Device) (e : String × PropValue) :
    Device.applyProp s d e =
      ((match adPathOf e with
        | some p => (getAdapter s p).1
        | none => s),
       { path := d.path,
         adapterRef := (match adPathOf e with
           | some p => some (getAdapter s p).2
           | none => d.adapterRef),
         address := (if e.1 = "Address" then asStr e.2 else none).getD d.address,
         connected := (if e.1 = "Connected" then asBool e.2 else none).getD d.connected,
         name := (if e.1 = "Name" then asStr e.2 else none).getD d.name,
         paired := (if e.1 = "Paired" then asBool e.2 else none).getD d.paired,
         trusted := (if e.1 = "Trusted" then asBool e.2 else none).getD d.trusted,
         uuids := ((if e.1 = "UUIDs" then asArr e.2 else none).map setOfList).getD d.uuids }) := by
  rcases e with ⟨k, v⟩
  by_cases h1 : k = "Name"
  · subst h1; cases v <;> simp +decide [Device.applyProp, adPathOf, asStr, asBool, asArr, asPath]
  · by_cases h2 : k = "Address"
    · subst h2; cases v <;> simp +decide [Device.applyProp, adPathOf, asStr, asBool, asArr, asPath]
    · by_cases h3 : k = "Paired"
      · subst h3; cases v <;> simp +decide [Device.applyProp, adPathOf, asStr, asBool, asArr, asPath]
      · by_cases h4 : k = "Trusted"
        · subst h4
          cases v <;> simp +decide [Device.applyProp, adPathOf, asStr, asBool, asArr, asPath]
        · by_cases h5 : k = "Connected"
          · subst h5
            cases v <;> simp +decide [Device.applyProp, adPathOf, asStr, asBool, asArr, asPath]
          · by_cases h6 : k = "UUIDs"
            · subst h6
              cases v <;> simp +decide [Device.applyProp, adPathOf, asStr, asBool, asArr, asPath]
            · by_cases h7 : k = "Adapter"
              · subst h7
                cases v <;>
                  simp +decide [Device.applyProp, adPathOf, asStr, asBool, asArr, asPath]
              · simp [Device.applyProp, adPathOf, h1, h2, h3, h4, h5, h6, h7]

theorem deviceDecode_cons (s : AdSt) (d : Device) (e : String × PropValue) (P : Payload) :
    Device.onPropertiesChanged s d (e :: P)
      = Device.onPropertiesChanged (Device.applyProp s d e).1 (Device.applyProp s d e).2 P := rfl

theorem deviceDecode_path (P : Payload) : ∀ (s : AdSt) (d : Device),
    (Device.onPropertiesChanged s d P).2.path = d.path := by
  induction P with
  | nil => intro s d; rfl
  | cons e P ih =>
    intro s d
    rw [deviceDecode_cons, ih, applyPropD_eq]

theorem deviceDecode_name (P : Payload) : ∀ (s : AdSt) (d : Device),
    (Device.onPropertiesChanged s d P).2.name = (lastProp "Name" asStr P).getD d.name := by
  induction P with
  | nil => intro s d; rfl
  | cons e P ih =>
    intro s d
    rw [deviceDecode_cons, ih, applyPropD_eq, lastProp_cons_getD]

theorem deviceDecode_address (P : Payload) : ∀ (s : AdSt) (d : Device),
    (Device.onPropertiesChanged s d P).2.address
      = (lastProp "Address" asStr P).getD d.address := by
  induction P with
  | nil => intro s d; rfl
  | cons e P ih =>
    intro s d
    rw [deviceDecode_cons, ih, applyPropD_eq, lastProp_cons_getD]

theorem deviceDecode_paired (P : Payload) : ∀ (s : AdSt) (d : Device),
    (Device.onPropertiesChanged s d P).2.paired
      = (lastProp "Paired" asBool P).getD d.paired := by
  induction P with
  | nil => intro s d; rfl
  | cons e P ih =>
    intro s d
    rw [deviceDecode_cons, ih, applyPropD_eq, lastProp_cons_getD]

theorem deviceDecode_trusted (P : Payload) : ∀ (s : AdSt) (d : Device),
    (Device.onPropertiesChanged s d P).2.trusted
      = (lastProp "Trusted" asBool P).getD d.trusted := by
  induction P with
  | nil => intro s d; rfl
  | cons e P ih =>
    intro s d
    rw [deviceDecode_cons, ih, applyPropD_eq, lastProp_cons_getD]

theorem deviceDecode_connected (P : Payload) : ∀ (s : AdSt) (d : Device),
    (Device.onPropertiesChanged s d P).2.connected
      = (lastProp "Connected" asBool P).getD d.connected := by
  induction P with
  | nil => intro s d; rfl
  | cons e P ih =>
    intro s d
    rw [deviceDecode_cons, ih, applyPropD_eq, lastProp_cons_getD]

theorem deviceDecode_uuids (P : Payload) : ∀ (s : AdSt) (d : Device),
    (Device.onPropertiesChanged s d P).2.uuids
      = ((lastProp "UUIDs" asArr P).map setOfList).getD d.uuids := by
  induction P with
  | nil => intro s d; rfl
  | cons e P ih =>
    intro s d
    rw [deviceDecode_cons, ih, applyPropD_eq, lastProp_cons_map_getD]

theorem deviceDecode_adapter_free : ∀ (P : Payload) (s : AdSt) (d : Device),
    (∀ e ∈ P, adPathOf e = none) →
      (Device.onPropertiesChanged s d P).1 = s ∧
      (Device.onPropertiesChanged s d P).2.adapterRef = d.adapterRef
  | [], s, d, _ => ⟨rfl, rfl⟩
  | e :: P, s, d, h => by
    have he := h e (List.mem_cons_self _ _)
    have h1 : (Device.applyProp s d e).1 = s := by
      rw [applyPropD_eq, he]
    have h2 : (Device.applyProp s d e).2.adapterRef = d.adapterRef := by
      rw [applyPropD_eq, he]
    rw [deviceDecode_cons]
    obtain ⟨ihs, ihr⟩ := deviceDecode_adapter_free P (Device.applyProp s d e).1
      (Device.applyProp s d e).2 (fun x hx => h x (List.mem_cons_of_mem _ hx))
    exact ⟨by rw [ihs, h1], by rw [ihr, h2]⟩

/-- Claim C8: the device property decoder updates only the fields named
in the payload — every field absent from the payload (including the
adapter reference, and for a payload without an `Adapter` entry also the
adapter registry) keeps its previous value; a payload of entries with
unknown field names leaves the record (and registry) unchanged; and when
the payload carries a `UUIDs` array, the resulting profile-UUID set
contains exactly the strings of that array (full replacement). -/
theorem c8_decoder_frame (s : AdSt) (d : Device) (P : Payload) :
    ((∀ e ∈ P, e.1 ≠ "Name") → (Device.onPropertiesChanged s d P).2.name = d.name) ∧
    ((∀ e ∈ P, e.1 ≠ "Address") →
      (Device.onPropertiesChanged s d P).2.address = d.address) ∧
    ((∀ e ∈ P, e.1 ≠ "Paired") → (Device.onPropertiesChanged s d P).2.paired = d.paired) ∧
    ((∀ e ∈ P, e.1 ≠ "Trusted") →
      (Device.onPropertiesChanged s d P).2.trusted = d.trusted) ∧
    ((∀ e ∈ P, e.1 ≠ "Connected") →
      (Device.onPropertiesChanged s d P).2.connected = d.connected) ∧
    ((∀ e ∈ P, e.1 ≠ "UUIDs") → (Device.onPropertiesChanged s d P).2.uuids = d.uuids) ∧
    ((∀ e ∈ P, e.1 ≠ "Adapter") →
      (Device.onPropertiesChanged s d P).2.adapterRef = d.adapterRef ∧
      (Device.onPropertiesChanged s d P).1 = s) ∧
    ((∀ e ∈ P, e.1 ∉ deviceKeys) → Device.onPropertiesChanged s d P = (s, d)) ∧
    (∀ l, (P.map Prod.fst).Nodup → ("UUIDs", PropValue.strArray l) ∈ P →
      ∀ u, (u ∈ (Device.onPropertiesChanged s d P).2.uuids ↔ u ∈ l)) := by
  refine ⟨?_, ?_, ?_, ?_, ?_, ?_, ?_, ?_, ?_⟩
  · intro h
    rw [deviceDecode_name, lastProp_eq_none h]
    rfl
  · intro h
    rw [deviceDecode_address, lastProp_eq_none h]
    rfl
  · intro h
    rw [deviceDecode_paired, lastProp_eq_none h]
    rfl
  · intro h
    rw [deviceDecode_trusted, lastProp_eq_none h]
    rfl
  · intro h
    rw [deviceDecode_connected, lastProp_eq_none h]
    rfl
  · intro h
    rw [deviceDecode_uuids, lastProp_eq_none h]
    rfl
  · intro h
    have hfree : ∀ e ∈ P, adPathOf e = none := by
      intro e he
      rw [adPathOf, if_neg (h e he)]
    obtain ⟨hs, hr⟩ := deviceDecode_adapter_free P s d hfree
    exact ⟨hr, hs⟩
  · intro h
    have hk : ∀ key, key ∈ deviceKeys → ∀ e ∈ P, e.1 ≠ key := by
      intro key hkey e he hcontra
      exact h e he (hcontra ▸ hkey)
    have hfree : ∀ e ∈ P, adPathOf e = none := by
      intro e he
      rw [adPathOf, if_neg (hk "Adapter" (by decide) e he)]
    obtain ⟨hs, hr⟩ := deviceDecode_adapter_free P s d hfree
    apply Prod.ext hs
    apply Device.ext
    · rw [deviceDecode_path]
    · rw [hr]
    · rw [deviceDecode_address, lastProp_eq_none (hk "Address" (by decide))]
      rfl
    · rw [deviceDecode_connected, lastProp_eq_none (hk "Connected" (by decide))]
      rfl
    · rw [deviceDecode_name, lastProp_eq_none (hk "Name" (by decide))]
      rfl
    · rw [deviceDecode_paired, lastProp_eq_none (hk "Paired" (by decide))]
      rfl
    · rw [deviceDecode_trusted, lastProp_eq_none (hk "Trusted" (by decide))]
      rfl
    · rw [deviceDecode_uuids, lastProp_eq_none (hk "UUIDs" (by decide))]
      rfl
  · intro l hnd hmem u
    rw [deviceDecode_uuids, lastProp_of_mem hnd hmem (by rfl)]
    exact mem_setOfList

/-- Witness for `c8_decoder_frame`: a payload with only an unknown field
name leaves the record and the registry untouched. -/
theorem c8_decoder_frame_witness :
    Device.onPropertiesChanged ⟨[], []⟩
        ⟨"/d0", none, "", false, "n", false, false, ["u"]⟩
        [("Bogus", PropValue.str "z")]
      = (⟨[], []⟩, ⟨"/d0", none, "", false, "n", false, false, ["u"]⟩) :=
  (c8_decoder_frame ⟨[], []⟩ ⟨"/d0", none, "", false, "n", false, false, ["u"]⟩
    [("Bogus", PropValue.str "z")]).2.2.2.2.2.2.2.1 (by decide)

theorem getAdapter_found {s : AdSt} {p : String} {j : Nat}
    (hf : s.reg.find? (fun i => (adGet s i).path == p) = some j) :
    getAdapter s p = (s, j) := by
  rw [getAdapter, hf]

theorem getAdapter_new {s : AdSt} {p : String}
    (hf : s.reg.find? (fun i => (adGet s i).path == p) = none) :
    getAdapter s p =
      ({ heap := s.heap ++ [mkAdapter p], reg := s.reg ++ [s.heap.length] },
        s.heap.length) := by
  rw [getAdapter, hf]

theorem getD_append_self (l : List Adapter) (x : Adapter) (d : Adapter) :
    (l ++ [x]).getD l.length d = x := by
  rw [List.getD_eq_getElem?_getD, List.getElem?_append]
  simp

theorem getAdapter_WF {s : AdSt} {p : String} (h : s.WF) : (getAdapter s p).1.WF := by
  cases hf : s.reg.find? (fun i => (adGet s i).path == p) with
  | some j =>
    rw [getAdapter_found hf]
    exact h
  | none =>
    rw [getAdapter_new hf]
    intro i hi
    simp only [List.mem_append, List.mem_singleton] at hi
    rcases hi with h1 | h2
    · have := h i h1
      simp only [List.length_append, List.length_singleton]
      omega
    · subst h2
      simp

theorem adSt_ext_refl (s : AdSt) : AdSt.Ext s s :=
  ⟨⟨[], by simp⟩, ⟨[], by simp⟩⟩

theorem adSt_ext_trans {s t u : AdSt} (h1 : AdSt.Ext s t) (h2 : AdSt.Ext t u) :
    AdSt.Ext s u := by
  obtain ⟨⟨a1, ha1⟩, ⟨b1, hb1⟩⟩ := h1
  obtain ⟨⟨a2, ha2⟩, ⟨b2, hb2⟩⟩ := h2
  exact ⟨⟨a1 ++ a2, by rw [ha2, ha1, List.append_assoc]⟩,
    ⟨b1 ++ b2, by rw [hb2, hb1, List.append_assoc]⟩⟩

theorem getAdapter_ext (s : AdSt) (p : String) : AdSt.Ext s (getAdapter s p).1 := by
  cases hf : s.reg.find? (fun i => (adGet s i).path == p) with
  | some j =>
    rw [getAdapter_found hf]
    exact adSt_ext_refl s
  | none =>
    rw [getAdapter_new hf]
    exact ⟨⟨[mkAdapter p], rfl⟩, ⟨[s.heap.length], rfl⟩⟩

theorem adGet_ext {s s' : AdSt} (hwf : s.WF) (hext : AdSt.Ext s s') {i : Nat}
    (hi : i ∈ s.reg) : adGet s' i = adGet s i := by
  obtain ⟨⟨h, hh⟩, -⟩ := hext
  rw [adGet, adGet, hh]
  exact List.getD_append _ _ _ _ (hwf i hi)

theorem find?_congr {l : List Nat} {f g : Nat → Bool} (h : ∀ x ∈ l, f x = g x) :
    l.find? f = l.find? g := by
  induction l with
  | nil => rfl
  | cons x xs ih =>
    rw [List.find?_cons, List.find?_cons, h x (List.mem_cons_self _ _)]
    cases g x
    · exact ih (fun y hy => h y (List.mem_cons_of_mem _ hy))
    · rfl

theorem find?_ext_some {s s' : AdSt} {p : String} {j : Nat} (hwf : s.WF)
    (hext : AdSt.Ext s s')
    (hf : s.reg.find? (fun i => (adGet s i).path == p) = some j) :
    s'.reg.find? (fun i => (adGet s' i).path == p) = some j := by
  obtain ⟨r, hr⟩ := hext.2
  rw [hr, List.find?_append]
  have hcongr : s.reg.find? (fun i => (adGet s' i).path == p) = some j := by
    rw [find?_congr (fun i hi => by rw [adGet_ext hwf hext hi])]
    exact hf
  rw [hcongr]
  rfl

theorem getAdapter_find {s : AdSt} {p : String} (hwf : s.WF) :
    (getAdapter s p).1.reg.find? (fun i => (adGet (getAdapter s p).1 i).path == p)
      = some (getAdapter s p).2 := by
  cases hf : s.reg.find? (fun i => (adGet s i).path == p) with
  | some j =>
    rw [getAdapter_found hf]
    exact hf
  | none =>
    rw [getAdapter_new hf]
    rw [List.find?_append]
    have hext : AdSt.Ext s
        ⟨s.heap ++ [mkAdapter p], s.reg ++ [s.heap.length]⟩ :=
      ⟨⟨[mkAdapter p], rfl⟩, ⟨[s.heap.length], rfl⟩⟩
    have h1 : s.reg.find?
        (fun i => (adGet ⟨s.heap ++ [mkAdapter p], s.reg ++ [s.heap.length]⟩ i).path == p)
        = none := by
      rw [find?_congr (fun i hi => by rw [adGet_ext hwf hext hi])]
      exact hf
    rw [h1]
    have h2 : ((adGet ⟨s.heap ++ [mkAdapter p], s.reg ++ [s.heap.length]⟩
        s.heap.length).path == p) = true := by
      rw [adGet]
      dsimp only
      rw [getD_append_self]
      simp [mkAdapter]
    rw [Option.none_or, List.find?_cons, h2]

theorem applyPropD_WF {s : AdSt} {d : Device} {e : String × PropValue} (hwf : s.WF) :
    (Device.applyProp s d e).1.WF := by
  cases hpe : adPathOf e with
  | none =>
    have hs : (Device.applyProp s d e).1 = s := by rw [applyPropD_eq, hpe]
    rw [hs]
    exact hwf
  | some p =>
    have hs : (Device.applyProp s d e).1 = (getAdapter s p).1 := by
      rw [applyPropD_eq, hpe]
    rw [hs]
    exact getAdapter_WF hwf

theorem applyPropD_ext (s : AdSt) (d : Device) (e : String × PropValue) :
    AdSt.Ext s (Device.applyProp s d e).1 := by
  cases hpe : adPathOf e with
  | none =>
    have hs : (Device.applyProp s d e).1 = s := by rw [applyPropD_eq, hpe]
    rw [hs]
    exact adSt_ext_refl s
  | some p =>
    have hs : (Device.applyProp s d e).1 = (getAdapter s p).1 := by
      rw [applyPropD_eq, hpe]
    rw [hs]
    exact getAdapter_ext s p

theorem deviceDecode_WF : ∀ (P : Payload) (s : AdSt) (d : Device), s.WF →
    (Device.onPropertiesChanged s d P).1.WF
  | [], _, _, hwf => hwf
  | e :: P, s, d, hwf => by
    rw [deviceDecode_cons]
    exact deviceDecode_WF P _ _ (applyPropD_WF hwf)

theorem deviceDecode_ext : ∀ (P : Payload) (s : AdSt) (d : Device),
    AdSt.Ext s (Device.onPropertiesChanged s d P).1
  | [], s, _ => adSt_ext_refl s
  | e :: P, s, d => by
    rw [deviceDecode_cons]
    exact adSt_ext_trans (applyPropD_ext s d e) (deviceDecode_ext P _ _)

theorem deviceDecode_reg_noop : ∀ (P : Payload) (s : AdSt) (d : Device), s.WF →
    (∀ p ∈ P.filterMap adPathOf,
      (s.reg.find? (fun i => (adGet s i).path == p)).isSome = true) →
    (Device.onPropertiesChanged s d P).1 = s
  | [], _, _, _, _ => rfl
  | e :: P, s, d, hwf, h => by
    rw [deviceDecode_cons]
    cases hpe : adPathOf e with
    | none =>
      have hs1 : (Device.applyProp s d e).1 = s := by rw [applyPropD_eq, hpe]
      rw [hs1]
      refine deviceDecode_reg_noop P s _ hwf (fun q hq => h q ?_)
      simp only [List.filterMap_cons, hpe]
      exact hq
    | some p' =>
      obtain ⟨j, hj⟩ := Option.isSome_iff_exists.mp
        (h p' (by simp [List.filterMap_cons, hpe]))
      have hs1 : (Device.applyProp s d e).1 = s := by
        rw [applyPropD_eq, hpe]
        dsimp only
        rw [getAdapter_found hj]
      rw [hs1]
      refine deviceDecode_reg_noop P s _ hwf (fun q hq => h q ?_)
      simp only [List.filterMap_cons, hpe]
      exact List.mem_cons_of_mem _ hq

theorem deviceDecode_saturates : ∀ (P : Payload) (s : AdSt) (d : Device), s.WF →
    ∀ p ∈ P.filterMap adPathOf,
      ((Device.onPropertiesChanged s d P).1.reg.find?
        (fun i => (adGet (Device.onPropertiesChanged s d P).1 i).path == p)).isSome
        = true
  | e :: P, s, d, hwf, p, hp => by
    rw [deviceDecode_cons]
    have hwf1 : (Device.applyProp s d e).1.WF := applyPropD_WF hwf
    cases hpe : adPathOf e with
    | none =>
      refine deviceDecode_saturates P _ _ hwf1 p ?_
      simpa [List.filterMap_cons, hpe] using hp
    | some q =>
      rw [List.filterMap_cons, hpe] at hp
      rcases List.mem_cons.mp hp with rfl | hp'
      · have hs1 : (Device.applyProp s d e).1 = (getAdapter s p).1 := by
          rw [applyPropD_eq, hpe]
        have hfind : ((Device.applyProp s d e).1.reg.find?
            (fun i => (adGet (Device.applyProp s d e).1 i).path == p))
            = some (getAdapter s p).2 := by
          rw [hs1]
          exact getAdapter_find hwf
        rw [find?_ext_some hwf1 (deviceDecode_ext P _ _) hfind]
        rfl
      · exact deviceDecode_saturates P _ _ hwf1 p hp'

theorem deviceDecode_ref : ∀ (P : Payload) (s : AdSt) (d : Device), s.WF →
    (Device.onPropertiesChanged s d P).2.adapterRef =
      match lastProp "Adapter" asPath P with
      | some p => some ((getAdapter (Device.onPropertiesChanged s d P).1 p).2)
      | none => d.adapterRef
  | [], _, _, _ => rfl
  | e :: P, s, d, hwf => by
    rw [deviceDecode_cons]
    have hwf1 : (Device.applyProp s d e).1.WF := applyPropD_WF hwf
    rw [deviceDecode_ref P _ _ hwf1, lastProp]
    have had : (if e.1 = "Adapter" then asPath e.2 else none) = adPathOf e := rfl
    rw [had]
    cases hL : lastProp "Adapter" asPath P with
    | some p => rfl
    | none =>
      cases hpe : adPathOf e with
      | none =>
        have href : (Device.applyProp s d e).2.adapterRef = d.adapterRef := by
          rw [applyPropD_eq, hpe]
        rw [href]
      | some q =>
        have href : (Device.applyProp s d e).2.adapterRef
            = some ((getAdapter s q).2) := by
          rw [applyPropD_eq, hpe]
        have hs1 : (Device.applyProp s d e).1 = (getAdapter s q).1 := by
          rw [applyPropD_eq, hpe]
        have hfind : ((Device.applyProp s d e).1.reg.find?
            (fun i => (adGet (Device.applyProp s d e).1 i).path == q))
            = some (getAdapter s q).2 := by
          rw [hs1]
          exact getAdapter_find hwf
        have hfinal := find?_ext_some hwf1
          (deviceDecode_ext P (Device.applyProp s d e).1 (Device.applyProp s d e).2) hfind
        rw [href]
        dsimp only
        rw [getAdapter_found hfinal]

/-- Claim C9: applying the same property-change payload twice — to a
`BlueZ::Adapter` record, or to a `BlueZ::Device` record together with the
adapter registry threaded through `getAdapter` — yields the same state as
applying it once.  The hypothesis is the representation invariant that
every registered adapter id denotes a live heap cell (true of every
`shared_ptr` in the C++ vector). -/
theorem c9_decode_idempotent (a : Adapter) (P : Payload) (s : AdSt) (d : Device)
    (hwf : s.WF) :
    Adapter.onPropertiesChanged (Adapter.onPropertiesChanged a P) P
      = Adapter.onPropertiesChanged a P ∧
    Device.onPropertiesChanged (Device.onPropertiesChanged s d P).1
        (Device.onPropertiesChanged s d P).2 P
      = Device.onPropertiesChanged s d P := by
  constructor
  · rw [adapterDecode_eq P a, adapterDecode_eq P]
    simp [option_getD_self]
  · have hwfS : (Device.onPropertiesChanged s d P).1.WF := deviceDecode_WF P s d hwf
    have hregS := deviceDecode_reg_noop P (Device.onPropertiesChanged s d P).1
      (Device.onPropertiesChanged s d P).2 hwfS (deviceDecode_saturates P s d hwf)
    apply Prod.ext hregS
    apply Device.ext
    · rw [deviceDecode_path]
    · rw [deviceDecode_ref P _ _ hwfS, hregS, deviceDecode_ref P s d hwf]
      cases hL : lastProp "Adapter" asPath P <;> rfl
    · rw [deviceDecode_address, deviceDecode_address, option_getD_self]
    · rw [deviceDecode_connected, deviceDecode_connected, option_getD_self]
    · rw [deviceDecode_name, deviceDecode_name, option_getD_self]
    · rw [deviceDecode_paired, deviceDecode_paired, option_getD_self]
    · rw [deviceDecode_trusted, deviceDecode_trusted, option_getD_self]
    · rw [deviceDecode_uuids, deviceDecode_uuids, option_getD_self]

/-- Witness for `c9_decode_idempotent`: a payload that flips a boolean,
replaces the UUID set and resolves an unseen adapter path (which the
first application creates and registers, and the second finds). -/
theorem c9_decode_idempotent_witness :
    Device.onPropertiesChanged
        (Device.onPropertiesChanged ⟨[], []⟩
          ⟨"/d0", none, "", false, "", false, false, []⟩
          [("Paired", PropValue.boolean true), ("UUIDs", PropValue.strArray ["u", "t"]),
            ("Adapter", PropValue.objectPath "/hci0")]).1
        (Device.onPropertiesChanged ⟨[], []⟩
          ⟨"/d0", none, "", false, "", false, false, []⟩
          [("Paired", PropValue.boolean true), ("UUIDs", PropValue.strArray ["u", "t"]),
            ("Adapter", PropValue.objectPath "/hci0")]).2
        [("Paired", PropValue.boolean true), ("UUIDs", PropValue.strArray ["u", "t"]),
          ("Adapter", PropValue.objectPath "/hci0")]
      = Device.onPropertiesChanged ⟨[], []⟩
          ⟨"/d0", none, "", false, "", false, false, []⟩
          [("Paired", PropValue.boolean true), ("UUIDs", PropValue.strArray ["u", "t"]),
            ("Adapter", PropValue.objectPath "/hci0")] :=
  (c9_decode_idempotent ⟨"/a0", "", "", false, false⟩
    [("Paired", PropValue.boolean true), ("UUIDs", PropValue.strArray ["u", "t"]),
      ("Adapter", PropValue.objectPath "/hci0")]
    ⟨[], []⟩ ⟨"/d0", none, "", false, "", false, false, []⟩
    (by intro i hi; simp at hi)).2

theorem getDevice_found {s : DevSt} {p : String} {j : Nat}
    (hf : s.reg.find? (fun i => (devGet s i).path == p) = some j) :
    getDevice s p = (s, j) := by
  rw [getDevice, hf]

theorem getDevice_new {s : DevSt} {p : String}
    (hf : s.reg.find? (fun i => (devGet s i).path == p) = none) :
    getDevice s p =
      ({ heap := s.heap ++ [mkDevice p], reg := s.reg ++ [s.heap.length] },
        s.heap.length) := by
  rw [getDevice, hf]

theorem devGet_append_self (l : List Device) (x : Device) :
    (l ++ [x]).getD l.length (mkDevice "") = x := by
  rw [List.getD_eq_getElem?_getD, List.getElem?_append]
  simp

/-- Claim C3, supporting theorem for the registry part of the contract:
`getAdapter`/`getDevice` return a registered record whose path is the
requested identity; when a record for the identity exists the state is
unchanged and the existing record is returned; when none exists a fresh
record is appended to the heap and registered; and afterwards the
registry holds exactly one record for the identity.  (The
zero-initialization part of the claim is where the code diverges: the
C++ constructors leave the `bool` members uninitialized; `mkAdapter` /
`mkDevice` model the spec's intent.) -/
theorem c3_registry_get (s : AdSt) (t : DevSt) (p : String)
    (hwfA : s.WF) (hwfD : t.WF)
    (hndA : (s.reg.map (fun i => (adGet s i).path)).Nodup)
    (hndD : (t.reg.map (fun i => (devGet t i).path)).Nodup) :
    ((getAdapter s p).2 ∈ (getAdapter s p).1.reg ∧
      (adGet (getAdapter s p).1 (getAdapter s p).2).path = p) ∧
    ((∃ i ∈ s.reg, (adGet s i).path = p) → (getAdapter s p).1 = s) ∧
    ((∀ i ∈ s.reg, (adGet s i).path ≠ p) →
      (getAdapter s p).1.heap = s.heap ++ [mkAdapter p] ∧
      (getAdapter s p).1.reg = s.reg ++ [s.heap.length] ∧
      adGet (getAdapter s p).1 (getAdapter s p).2 = mkAdapter p) ∧
    (((getAdapter s p).1.reg.map
      (fun i => (adGet (getAdapter s p).1 i).path)).count p = 1) ∧
    ((getDevice t p).2 ∈ (getDevice t p).1.reg ∧
      (devGet (getDevice t p).1 (getDevice t p).2).path = p) ∧
    ((∃ i ∈ t.reg, (devGet t i).path = p) → (getDevice t p).1 = t) ∧
    ((∀ i ∈ t.reg, (devGet t i).path ≠ p) →
      (getDevice t p).1.heap = t.heap ++ [mkDevice p] ∧
      (getDevice t p).1.reg = t.reg ++ [t.heap.length] ∧
      devGet (getDevice t p).1 (getDevice t p).2 = mkDevice p) ∧
    (((getDevice t p).1.reg.map
      (fun i => (devGet (getDevice t p).1 i).path)).count p = 1) := by
  have hA : ∀ (c : AdSt × Nat), getAdapter s p = c →
      (c.2 ∈ c.1.reg ∧ (adGet c.1 c.2).path = p) ∧
      ((∃ i ∈ s.reg, (adGet s i).path = p) → c.1 = s) ∧
      ((∀ i ∈ s.reg, (adGet s i).path ≠ p) →
        c.1.heap = s.heap ++ [mkAdapter p] ∧ c.1.reg = s.reg ++ [s.heap.length] ∧
        adGet c.1 c.2 = mkAdapter p) ∧
      ((c.1.reg.map (fun i => (adGet c.1 i).path)).count p = 1) := by
    intro c hc
    cases hf : s.reg.find? (fun i => (adGet s i).path == p) with
    | some j =>
      rw [getAdapter_found hf] at hc
      subst hc
      have hmem := List.mem_of_find?_eq_some hf
      have hpath : (adGet s j).path = p := by
        have := List.find?_some hf
        simpa using this
      refine ⟨⟨hmem, hpath⟩, fun _ => rfl, fun habs => absurd hpath (habs j hmem), ?_⟩
      exact List.count_eq_one_of_mem hndA (List.mem_map.mpr ⟨j, hmem, hpath⟩)
    | none =>
      rw [getAdapter_new hf] at hc
      subst hc
      have hnomem : ∀ i ∈ s.reg, (adGet s i).path ≠ p := by
        intro i hi hcontra
        have := List.find?_eq_none.mp hf i hi
        simp [hcontra] at this
      have hext : AdSt.Ext s ⟨s.heap ++ [mkAdapter p], s.reg ++ [s.heap.length]⟩ :=
        ⟨⟨[mkAdapter p], rfl⟩, ⟨[s.heap.length], rfl⟩⟩
      have hfresh : adGet ⟨s.heap ++ [mkAdapter p], s.reg ++ [s.heap.length]⟩
          s.heap.length = mkAdapter p := by
        rw [adGet]
        exact getD_append_self _ _ _
      have hmapeq : (s.reg.map (fun i =>
          (adGet ⟨s.heap ++ [mkAdapter p], s.reg ++ [s.heap.length]⟩ i).path))
          = s.reg.map (fun i => (adGet s i).path) :=
        List.map_congr_left (fun i hi => by rw [adGet_ext hwfA hext hi])
      refine ⟨⟨by simp, by rw [hfresh]; rfl⟩,
        fun hex => ?_, fun _ => ⟨rfl, rfl, hfresh⟩, ?_⟩
      · obtain ⟨i, hi, hpath⟩ := hex
        exact absurd hpath (hnomem i hi)
      · show ((s.reg ++ [s.heap.length]).map _).count p = 1
        rw [List.map_append, List.count_append, List.map_singleton, hmapeq, hfresh]
        have hzero : (s.reg.map (fun i => (adGet s i).path)).count p = 0 := by
          rw [List.count_eq_zero]
          intro hcontra
          obtain ⟨i, hi, hpath⟩ := List.mem_map.mp hcontra
          exact hnomem i hi hpath
        rw [hzero]
        simp [mkAdapter]
  have hD : ∀ (c : DevSt × Nat), getDevice t p = c →
      (c.2 ∈ c.1.reg ∧ (devGet c.1 c.2).path = p) ∧
      ((∃ i ∈ t.reg, (devGet t i).path = p) → c.1 = t) ∧
      ((∀ i ∈ t.reg, (devGet t i).path ≠ p) →
        c.1.heap = t.heap ++ [mkDevice p] ∧ c.1.reg = t.reg ++ [t.heap.length] ∧
        devGet c.1 c.2 = mkDevice p) ∧
      ((c.1.reg.map (fun i => (devGet c.1 i).path)).count p = 1) := by
    intro c hc
    cases hf : t.reg.find? (fun i => (devGet t i).path == p) with
    | some j =>
      rw [getDevice_found hf] at hc
      subst hc
      have hmem := List.mem_of_find?_eq_some hf
      have hpath : (devGet t j).path = p := by
        have := List.find?_some hf
        simpa using this
      refine ⟨⟨hmem, hpath⟩, fun _ => rfl, fun habs => absurd hpath (habs j hmem), ?_⟩
      exact List.count_eq_one_of_mem hndD (List.mem_map.mpr ⟨j, hmem, hpath⟩)
    | none =>
      rw [getDevice_new hf] at hc
      subst hc
      have hnomem : ∀ i ∈ t.reg, (devGet t i).path ≠ p := by
        intro i hi hcontra
        have := List.find?_eq_none.mp hf i hi
        simp [hcontra] at this
      have hfresh : devGet ⟨t.heap ++ [mkDevice p], t.reg ++ [t.heap.length]⟩
          t.heap.length = mkDevice p := by
        rw [devGet]
        exact devGet_append_self _ _
      have hmapeq : (t.reg.map (fun i =>
          (devGet ⟨t.heap ++ [mkDevice p], t.reg ++ [t.heap.length]⟩ i).path))
          = t.reg.map (fun i => (devGet t i).path) := by
        refine List.map_congr_left (fun i hi => ?_)
        rw [devGet, devGet]
        dsimp only
        rw [List.getD_append _ _ _ _ (hwfD i hi)]
      refine ⟨⟨by simp, by rw [hfresh]; rfl⟩,
        fun hex => ?_, fun _ => ⟨rfl, rfl, hfresh⟩, ?_⟩
      · obtain ⟨i, hi, hpath⟩ := hex
        exact absurd hpath (hnomem i hi)
      · show ((t.reg ++ [t.heap.length]).map _).count p = 1
        rw [List.map_append, List.count_append, List.map_singleton, hmapeq, hfresh]
        have hzero : (t.reg.map (fun i => (devGet t i).path)).count p = 0 := by
          rw [List.count_eq_zero]
          intro hcontra
          obtain ⟨i, hi, hpath⟩ := List.mem_map.mp hcontra
          exact hnomem i hi hpath
        rw [hzero]
        simp [mkDevice]
  obtain ⟨a1, a2, a3, a4⟩ := hA (getAdapter s p) rfl
  obtain ⟨d1, d2, d3, d4⟩ := hD (getDevice t p) rfl
  exact ⟨a1, a2, a3, a4, d1, d2, d3, d4⟩

/-- Witness for `c3_registry_get`: creation into an empty registry. -/
theorem c3_registry_get_witness :
    (((getAdapter ⟨[], []⟩ "/hci0").1.reg.map
      (fun i => (adGet (getAdapter ⟨[], []⟩ "/hci0").1 i).path)).count "/hci0" = 1) ∧
    (((getDevice ⟨[], []⟩ "/dev0").1.reg.map
      (fun i => (devGet (getDevice ⟨[], []⟩ "/dev0").1 i).path)).count "/dev0" = 1) := by
  have h := c3_registry_get ⟨[], []⟩ ⟨[], []⟩ "/hci0"
    (by intro i hi; simp at hi) (by intro i hi; simp at hi) (by decide) (by decide)
  have h' := c3_registry_get ⟨[], []⟩ ⟨[], []⟩ "/dev0"
    (by intro i hi; simp at hi) (by intro i hi; simp at hi) (by decide) (by decide)
  exact ⟨h.2.2.2.1, h'.2.2.2.2.2.2.2⟩

/-- Claim C6, counterexample to the claim as stated: the trust wait loop
of `Bluepairy::trust` and the discovery wait loop of
`Bluepairy::startDiscovery` have no timeout — for a state whose waited-on
record exists with the target condition still false, the guard stays true
at every elapsed time, so no deadline bounds the loop.  (Only the
power-up loop carries the 1-second timeout.) -/
theorem c6_cex :
    ¬ timeBounded (fun _ =>
      trustGuard ⟨[⟨"/d0", none, "", false, "", false, false, []⟩], [0]⟩ 0) ∧
    ¬ timeBounded (fun _ =>
      discoveryGuard ⟨[⟨"/a0", "", "", true, false⟩], [0]⟩ 0) ∧
    trustGuard ⟨[⟨"/d0", none, "", false, "", false, false, []⟩], [0]⟩ 0 = true ∧
    discoveryGuard ⟨[⟨"/a0", "", "", true, false⟩], [0]⟩ 0 = true := by
  refine ⟨?_, ?_, by decide, by decide⟩
  · rintro ⟨T, hT⟩
    have h := hT T (le_refl T)
    rw [show trustGuard ⟨[⟨"/d0", none, "", false, "", false, false, []⟩], [0]⟩ 0
      = true from by decide] at h
    exact absurd h (by simp)
  · rintro ⟨T, hT⟩
    have h := hT T (le_refl T)
    rw [show discoveryGuard ⟨[⟨"/a0", "", "", true, false⟩], [0]⟩ 0
      = true from by decide] at h
    exact absurd h (by simp)

/-- Claim C6, amended: the power-up wait loop is bounded by its explicit
1-second timeout (the guard is false at any elapsed time of 1000 ms or
more, whatever the state); the trust, start-discovery and forget wait
loops have no timeout and exit exactly when the waited-on record is gone
or its target condition holds. -/
theorem c6_guards :
    (∀ (s : AdSt) (i : Nat), timeBounded (powerUpGuard s i)) ∧
    (∀ (s : AdSt) (i t : Nat), 1000 ≤ t → powerUpGuard s i t = false) ∧
    (∀ (s : DevSt) (i : Nat),
      trustGuard s i = false ↔ (devExists s i = false ∨ (devGet s i).trusted = true)) ∧
    (∀ (s : AdSt) (i : Nat),
      discoveryGuard s i = false ↔
        (adapterExists s i = false ∨ (adGet s i).discovering = true)) ∧
    (∀ (s : DevSt) (i : Nat), forgetGuard s i = false ↔ devExists s i = false) := by
  have hpow : ∀ (s : AdSt) (i t : Nat), 1000 ≤ t → powerUpGuard s i t = false := by
    intro s i t ht
    rw [powerUpGuard, decide_eq_false (by omega)]
    simp
  refine ⟨fun s i => ⟨1000, fun t ht => hpow s i t ht⟩, hpow, ?_, ?_, ?_⟩
  · intro s i
    cases h1 : devExists s i <;> cases h2 : (devGet s i).trusted <;>
      simp [trustGuard, h1, h2]
  · intro s i
    cases h1 : adapterExists s i <;> cases h2 : (adGet s i).discovering <;>
      simp [discoveryGuard, h1, h2]
  · intro s i
    rw [forgetGuard]

/-- Witness for `c6_guards`: the power-up guard is false at the
1000 ms deadline in a concrete state. -/
theorem c6_guards_witness :
    powerUpGuard ⟨[⟨"/a0", "", "", false, false⟩], [0]⟩ 0 1000 = false :=
  c6_guards.2.1 ⟨[⟨"/a0", "", "", false, false⟩], [0]⟩ 0 1000 (le_refl 1000)

theorem not_mem_removeFirst {t : DevSt} {p : String} {i : Nat}
    (hpi : (devGet t i).path = p) :
    ∀ (l : List Nat), (l.map (fun j => (devGet t j).path)).Nodup →
      i ∉ removeFirst (fun j => (devGet t j).path == p) l
  | [], _, h => by simp [removeFirst] at h
  | x :: xs, hnd, h => by
    rw [List.map_cons, List.nodup_cons] at hnd
    rw [removeFirst] at h
    by_cases hfx : ((devGet t x).path == p) = true
    · rw [if_pos hfx] at h
      have hxp : (devGet t x).path = p := by simpa using hfx
      have : (devGet t i).path ∈ xs.map (fun j => (devGet t j).path) :=
        List.mem_map.mpr ⟨i, h, rfl⟩
      rw [hpi, ← hxp] at this
      exact hnd.1 this
    · rw [if_neg hfx] at h
      rcases List.mem_cons.mp h with rfl | h'
      · exact hfx (by simp [hpi])
      · exact not_mem_removeFirst hpi xs hnd.2 h'

/-- Claim C7: the liveness check `BlueZ::Device::exists` scans only the
registry (the result depends on the `Devices` vector alone and never on
the heap contents — the possibly-stale record's fields are not read); and
once `Bluepairy::removeDevice` evicts the record a wait loop is pumping
on, the check is false and the guards of the trust and forget wait loops
are false, so both loops terminate at their next test. -/
theorem c7_removal_cancels (t : DevSt) (i : Nat) (p : String)
    (hpi : (devGet t i).path = p)
    (hnd : (t.reg.map (fun j => (devGet t j).path)).Nodup) :
    (∀ (h1 h2 : List Device) (reg : List Nat) (j : Nat),
      devExists ⟨h1, reg⟩ j = devExists ⟨h2, reg⟩ j) ∧
    devExists (removeDevice t p) i = false ∧
    trustGuard (removeDevice t p) i = false ∧
    forgetGuard (removeDevice t p) i = false := by
  have hnot : i ∉ removeFirst (fun j => (devGet t j).path == p) t.reg :=
    not_mem_removeFirst hpi t.reg hnd
  have hex : devExists (removeDevice t p) i = false := by
    rw [removeDevice, devExists]
    simpa using hnot
  refine ⟨fun h1 h2 reg j => rfl, hex, ?_, ?_⟩
  · rw [trustGuard, hex]
    rfl
  · rw [forgetGuard, hex]

/-- Witness for `c7_removal_cancels`: removing the only registered
device cancels the waits on it. -/
theorem c7_removal_cancels_witness :
    devExists (removeDevice ⟨[⟨"/d0", none, "", false, "", false, false, []⟩], [0]⟩
      "/d0") 0 = false :=
  (c7_removal_cancels ⟨[⟨"/d0", none, "", false, "", false, false, []⟩], [0]⟩ 0 "/d0"
    (by decide) (by decide)).2.1

/-- Claim C2, counterexample to the claim as stated: a pairing attempt
that fails with a remote error whose name is outside the seven recognized
ones — the taxonomy's generic catch-all, here
`org.bluez.Error.DoesNotExist` — is rethrown as a plain
`std::runtime_error`, which `main`'s per-device `catch (BlueZ::Error&)`
does not match: the loop aborts with the error instead of proceeding to
the next candidate (device 1 is never attempted). -/
theorem c2_cex :
    pairAll (fun _ => .error (decodeError "org.bluez.Error.DoesNotExist" "msg")) [0, 1]
      = .error (.generic "org.bluez.Error.DoesNotExist" "msg") ∧
    isBlueZError (decodeError "org.bluez.Error.DoesNotExist" "msg") = false :=
  ⟨rfl, rfl⟩

/-- Claim C2, amended: a pairing error carrying one of the seven
recognized BlueZ error names is caught at per-device granularity — the
loop visits every candidate, recording which attempts failed, and never
aborts; an error with an unrecognized name escapes the per-device
handler.  `isBlueZError` is true exactly for the seven typed names. -/
theorem c2_pair_errors (attempt : Nat → Except RemoteError Unit) (ds : List Nat)
    (h : ∀ i ∈ ds, ∀ e, attempt i = .error e → isBlueZError e = true) :
    pairAll attempt ds = .ok (ds.map (fun i => (i, attemptOk (attempt i)))) ∧
    (∀ name msg, isBlueZError (decodeError name msg) = true ↔ name ∈ bluezErrorNames) := by
  constructor
  · induction ds with
    | nil => rfl
    | cons i is ih =>
      rw [pairAll]
      cases ha : attempt i with
      | ok u =>
        rw [ih (fun j hj e he => h j (List.mem_cons_of_mem _ hj) e he)]
        simp [attemptOk, ha, Except.map]
      | error e =>
        dsimp only
        rw [if_pos (h i (List.mem_cons_self _ _) e ha)]
        rw [ih (fun j hj e' he' => h j (List.mem_cons_of_mem _ hj) e' he')]
        simp [attemptOk, ha, Except.map]
  · intro name msg
    by_cases h1 : name = "org.bluez.Error.AlreadyConnected"
    · subst h1; simp [decodeError, isBlueZError, bluezErrorNames]
    · by_cases h2 : name = "org.bluez.Error.AlreadyExists"
      · subst h2; simp [decodeError, isBlueZError, bluezErrorNames]
      · by_cases h3 : name = "org.bluez.Error.AuthenticationFailed"
        · subst h3; simp [decodeError, isBlueZError, bluezErrorNames]
        · by_cases h4 : name = "org.bluez.Error.AuthenticationRejected"
          · subst h4; simp [decodeError, isBlueZError, bluezErrorNames]
          · by_cases h5 : name = "org.bluez.Error.AuthenticationTimeout"
            · subst h5; simp [decodeError, isBlueZError, bluezErrorNames]
            · by_cases h6 : name = "org.bluez.Error.ConnectionAttemptFailed"
              · subst h6; simp [decodeError, isBlueZError, bluezErrorNames]
              · by_cases h7 : name = "org.bluez.Error.Failed"
                · subst h7; simp [decodeError, isBlueZError, bluezErrorNames]
                · simp [decodeError, isBlueZError, bluezErrorNames,
                    h1, h2, h3, h4, h5, h6, h7]

/-- Witness for `c2_pair_errors`: two candidates, the first failing with
a recognized name, the second succeeding; the loop visits both. -/
theorem c2_pair_errors_witness :
    pairAll (fun i => if i = 0
        then .error (decodeError "org.bluez.Error.AuthenticationFailed" "m")
        else .ok ()) [0, 1]
      = .ok [(0, false), (1, true)] := by
  have h := c2_pair_errors (fun i => if i = 0
      then .error (decodeError "org.bluez.Error.AuthenticationFailed" "m")
      else .ok ()) [0, 1]
    (by
      intro i hi e he
      fin_cases hi
      · dsimp only at he
        rw [if_pos rfl] at he
        have he2 : decodeError "org.bluez.Error.AuthenticationFailed" "m" = e := by
          injection he
        rw [← he2]
        rfl
      · dsimp only at he
        rw [if_neg (by decide)] at he
        simp at he)
  rw [h.1]
  rfl
example : guessPIN "Active Braille AB4/B1-12345".toList = "24680".toList := by decide
example : guessPIN "Unknown Device".toList = "0000".toList := by decide
example : guessPIN "Active Braille AB4/b1-12345".toList = "0000".toList := by decide
example : guessPINAnyLetter "Active Braille AB4/b1-12345".toList = "24680".toList := by decide
example : pairAll (fun _ => .error (decodeError "org.bluez.Error.DoesNotExist" "x")) [0] =
    .error (.generic "org.bluez.Error.DoesNotExist" "x") := rfl
example : pairAll (fun _ => .error (decodeError "org.bluez.Error.Failed" "x")) [0, 1] =
    .ok [(0, false), (1, false)] := rfl
